import Mathlib

/-!
az_sentinel_ti_cleaner: a model of `main.go`: the start-up checks, the Lister (`listThreatIndicators`),
the Deleter (`deleteThreatIndicator`), one cycle of the Batch Coordinator
(`processIndicators`) and the loop of `main`.

The program talks to the outside world (the `az` helper, the HTTP service, the
signals of the operating system, the Go scheduler).  Every answer of the outside
world is an explicit input of the model, and everything the program does to the
outside world is an `Event` appended to a trace.
-/

namespace TICleaner

/-! ## Package-level state -/

/-- One entry of the `sortBy` list of `graphTI`. -/
structure SortKey where
  itemKey : String
  sortOrder : String
deriving DecidableEq

/-- The map `graphTI`, the body of the listing request, with its five keys. -/
structure GraphTI where
  pageSize : Int
  minConfidence : Int
  maxConfidence : Int
  sources : List String
  sortBy : List SortKey
deriving DecidableEq

/-- The initial value of the package-level variable `graphTI`. -/
def graphTI : GraphTI :=
  { pageSize := 10
    minConfidence := 0
    maxConfidence := 50
    sources := ["Mandiant"]
    sortBy := [{ itemKey := "lastUpdatedTimeUtc", sortOrder := "descending" }] }

/-- The other package-level variables of `main.go`. -/
structure Globals where
  token : String
  minConfidence : Int
  maxConfidence : Int
  sources : String
  subscription : String
  workspace : String
  resourceGroup : String
deriving DecidableEq

/-- The command line as the `flag` package sees it: for each of the six flags,
the value given on the command line, or `none` when the flag is not given.
(A command line that `flag.Parse` itself rejects, such as one with an unknown
flag or a malformed integer, never reaches the code modelled here.) -/
structure CommandLine where
  source : Option String
  subscription : Option String
  resourceGroup : Option String
  workspace : Option String
  minConfidence : Option Int
  maxConfidence : Option Int
deriving DecidableEq

/-- The six `flag.StringVar` / `flag.IntVar` registrations followed by
`flag.Parse()`: a flag that is not given keeps the default of its
registration. -/
def parseFlags (token : String) (args : CommandLine) : Globals :=
  { token := token
    sources := args.source.getD "Mandiant"
    subscription := args.subscription.getD "none"
    resourceGroup := args.resourceGroup.getD "none"
    workspace := args.workspace.getD ""
    minConfidence := args.minConfidence.getD 0
    maxConfidence := args.maxConfidence.getD 50 }

/-- The pieces of a character list between its commas. -/
def splitComma : List Char → List (List Char)
  | [] => [[]]
  | c :: cs =>
    if c = ',' then [] :: splitComma cs
    else
      match splitComma cs with
      | [] => [[c]]
      | piece :: pieces => (c :: piece) :: pieces

/-- The call `strings.Split(s, ",")`. -/
def Split (s : String) : List String :=
  (splitComma s.toList).map String.mk

/-- The three assignments "Update graphTI map with the provided values". -/
def updateGraphTI (g : Globals) : GraphTI :=
  { graphTI with
    sources := Split g.sources
    minConfidence := g.minConfidence
    maxConfidence := g.maxConfidence }

/-- The condition of the start-up check of `main`. -/
def missingRequired (g : Globals) : Bool :=
  g.subscription == "" || g.resourceGroup == "" || g.workspace == ""

/-! ## Events -/

/-- What the program does to the outside world, in the order it does it. -/
inductive Event where
  /-- `listThreatIndicators` is called; `body` is the value of `graphTI` it
  marshals into the request. -/
  | listCall (body : GraphTI)
  /-- `deleteThreatIndicator` is called with this identifier. -/
  | deleteCall (id : String)
  /-- The `fmt.Println(fullid)` of `deleteThreatIndicator`. -/
  | emitted (id : String)
  /-- The `fmt.Println(err)` of `processIndicators`. -/
  | failure (msg : String)
  /-- The other writes to standard output, with the text written. -/
  | stdout (text : String)
  /-- The call `flag.Usage()`. -/
  | usage
  /-- The message of `log.Fatal` / `log.Fatalf`; the process then exits with
  code 1. -/
  | fatal (msg : String)
  /-- The call `time.Sleep(1 * time.Second)`. -/
  | sleep
deriving DecidableEq

/-- The identifiers `deleteThreatIndicator` was called with, in order. -/
def deleteCalls : List Event → List String
  | [] => []
  | .deleteCall id :: es => id :: deleteCalls es
  | _ :: es => deleteCalls es

/-- The identifiers written by `deleteThreatIndicator`, in order. -/
def emittedIds : List Event → List String
  | [] => []
  | .emitted id :: es => id :: emittedIds es
  | _ :: es => emittedIds es

/-- The failure messages written by `processIndicators`, in order. -/
def failureLines : List Event → List String
  | [] => []
  | .failure msg :: es => msg :: failureLines es
  | _ :: es => failureLines es

/-- The number of calls of `listThreatIndicators`. -/
def listCalls : List Event → Nat
  | [] => 0
  | .listCall _ :: es => listCalls es + 1
  | _ :: es => listCalls es

/-- The texts written to standard output by `main` and the signal goroutine. -/
def stdoutTexts : List Event → List String
  | [] => []
  | .stdout text :: es => text :: stdoutTexts es
  | _ :: es => stdoutTexts es

/-! ## JSON documents and the decoding of the listing response -/

/-- A well-formed JSON text, as a value. -/
inductive Json where
  | null
  | bool (b : Bool)
  | number (literal : String)
  | string (s : String)
  | array (items : List Json)
  | object (members : List (String × Json))

/-- A name with its ASCII letters in lower case. -/
def asciiFold (s : String) : List Char :=
  s.toList.map Char.toLower

/-- Whether an object key selects the struct field tagged `tag`:
`encoding/json` accepts the exact name and any case variant of it.  (For the
two tags of this program, `value` and `name`, the case folding of
`encoding/json` is the ASCII one.) -/
def matchesField (tag key : String) : Bool :=
  asciiFold key == asciiFold tag

/-- The values of the members of an object that select the field `tag`, in the
order of the document.  Members that select no field are skipped by the
decoder. -/
def fieldValues (tag : String) (members : List (String × Json)) : List Json :=
  (members.filter (fun kv => matchesField tag kv.1)).map (fun kv => kv.2)

/-- An element of `result.Value`: the anonymous struct with the single field
`ID string` tagged `json:"name"`. -/
structure Item where
  ID : String
deriving DecidableEq

/-- The slice `result.Value` during decoding: `array` holds the elements of its
backing array that were written since the array was allocated (the elements
after them are zero values), and the first `len` of them are the elements of
the slice. -/
structure Slice where
  array : List Item
  len : Nat
deriving DecidableEq

/-- The elements of a slice. -/
def Slice.elems (v : Slice) : List Item :=
  v.array.take v.len

/-- Decoding one JSON value into the field `ID`: a string is stored, `null`
leaves the field as it is, anything else is a type error.  The second
component says whether a type error was met so far. -/
def storeName (cur : String × Bool) (j : Json) : String × Bool :=
  match j with
  | .string s => (s, cur.2)
  | .null => cur
  | _ => (cur.1, true)

/-- Decoding one element of the `value` array into an `Item` that holds `old`:
an object stores each of its `name` members in turn, `null` changes nothing,
anything else is a type error. -/
def decodeItem (old : Item) (bad : Bool) (j : Json) : Item × Bool :=
  match j with
  | .object members =>
    let r := (fieldValues "name" members).foldl storeName (old.ID, bad)
    ({ ID := r.1 }, r.2)
  | .null => (old, bad)
  | _ => (old, true)

/-- Decoding the elements of a JSON array into a backing array that holds
`old`: the i-th element is decoded into what the i-th element of the backing
array holds, a zero value where nothing was written yet. -/
def decodeItems : List Item → Bool → List Json → List Item × Bool
  | _, bad, [] => ([], bad)
  | old, bad, j :: js =>
    let r := decodeItem (old.headD { ID := "" }) bad j
    let rest := decodeItems old.tail r.2 js
    (r.1 :: rest.1, rest.2)

/-- Decoding one JSON value into the field `Value`.  An array is decoded
element by element into the backing array and the slice ends up as long as the
array; what the backing array holds further on stays there, out of the slice,
and an empty array gives a fresh empty slice.  `null` sets the slice to nil.
Anything else is a type error. -/
def storeValue (cur : Slice × Bool) (j : Json) : Slice × Bool :=
  match j with
  | .array [] => ({ array := [], len := 0 }, cur.2)
  | .array items =>
    ({ array := (decodeItems cur.1.array cur.2 items).1 ++ cur.1.array.drop items.length
       len := items.length },
     (decodeItems cur.1.array cur.2 items).2)
  | .null => ({ array := [], len := 0 }, cur.2)
  | _ => (cur.1, true)

/-- Decoding a document into the variable `result`: an object stores each of
its `value` members in turn, `null` changes nothing, anything else is a type
error. -/
def decodeResult (j : Json) : Slice × Bool :=
  match j with
  | .object members =>
    (fieldValues "value" members).foldl storeValue ({ array := [], len := 0 }, false)
  | .null => ({ array := [], len := 0 }, false)
  | _ => ({ array := [], len := 0 }, true)

/-- The body of a response, as `ioutil.ReadAll` and `encoding/json` see it. -/
inductive Body where
  /-- `ioutil.ReadAll` fails. -/
  | unreadable (err : String)
  /-- The bytes are not a well-formed JSON text; `err` is the error
  `json.Unmarshal` reports for them. -/
  | malformed (err : String)
  /-- The bytes are the JSON text of the value `j`; `mismatch` is the text of
  the type error `json.Unmarshal` reports when `j` does not fit the type of
  `result` (the wording is that of the Go release in use). -/
  | document (j : Json) (mismatch : String)

/-- The call `json.Unmarshal(respBody, &result)` on a well-formed text: the
slice `result.Value` afterwards, and the error returned.  A type error does
not stop the decoding; it is returned at the end. -/
def Unmarshal (j : Json) (mismatch : String) : List Item × Option String :=
  ((decodeResult j).1.elems, if (decodeResult j).2 then some mismatch else none)

/-! ## The Lister -/

/-- What happens to the request of `listThreatIndicators`. -/
inductive ListExchange where
  /-- `json.Marshal(graphTI)` fails. -/
  | marshalError (err : String)
  /-- `http.NewRequest` fails. -/
  | requestError (err : String)
  /-- `client.Do` fails. -/
  | transportError (err : String)
  /-- The service answers with this status code and body. -/
  | response (status : Nat) (body : Body)

/-- The function `listThreatIndicators`: the identifiers and the error it
returns, given what happens to its request. -/
def listThreatIndicators (x : ListExchange) : List String × Option String :=
  match x with
  | .marshalError e => ([], some ("failed to marshal graphTI: " ++ e))
  | .requestError e => ([], some ("failed to create request: " ++ e))
  | .transportError e => ([], some ("failed to execute request: " ++ e))
  | .response status body =>
    if status != 200 then
      ([], some ("unexpected status code: " ++ toString status))
    else
      match body with
      | .unreadable e => ([], some ("failed to read response body: " ++ e))
      | .malformed e => ([], some ("failed to unmarshal response: " ++ e))
      | .document j mismatch =>
        match Unmarshal j mismatch with
        | (_, some e) => ([], some ("failed to unmarshal response: " ++ e))
        | (value, none) => (value.map (fun item => item.ID), none)

/-! ## The Deleter -/

/-- What happens to the request of `deleteThreatIndicator`. -/
inductive DeleteExchange where
  /-- `http.NewRequest` fails. -/
  | requestError (err : String)
  /-- `client.Do` fails. -/
  | transportError (err : String)
  /-- The service answers with this status code. -/
  | response (status : Nat)
deriving DecidableEq

/-- The function `deleteThreatIndicator`: what it writes and the error it
returns, given what happens to its request. -/
def deleteThreatIndicator (fullid : String) (x : DeleteExchange) : List Event × Option String :=
  match x with
  | .requestError e => ([], some ("failed to create request: " ++ e))
  | .transportError e => ([], some ("failed to execute request: " ++ e))
  | .response status =>
    if status != 200 then
      ([], some ("unexpected status code: " ++ toString status))
    else
      ([.emitted fullid], none)

/-- The error a delete goroutine sends on the channel `errors`. -/
def failureMessage (indicatorID err : String) : String :=
  "failed to delete indicator with ID " ++ indicatorID ++ ": " ++ err

/-! ## The signal goroutine and the delete goroutines -/

/-- Where the goroutine started by `main` stands: blocked on `<-signalChan`,
past `close(doneChan)`, or past its `fmt.Println`. -/
inductive HandlerPc where
  | waiting
  | closed
  | printed
deriving DecidableEq

/-- Whether `doneChan` is closed. -/
def HandlerPc.doneClosed (h : HandlerPc) : Bool :=
  h != .waiting

/-- One step of the signal goroutine; from `waiting` the step is the arrival of
an interrupt or SIGTERM.  It returns the new position and what was written. -/
def HandlerPc.step : HandlerPc → HandlerPc × List Event
  | .waiting => (.closed, [])
  | .closed => (.printed, [.stdout "\nReceived an interrupt, stopping...\n"])
  | .printed => (.printed, [])

/-- Where a delete goroutine of `processIndicators` stands: before its
`select`, inside `deleteThreatIndicator`, at the send `errors <- ...` with the
error to send, or returned. -/
inductive TaskPc where
  | pending
  | calling
  | sending (err : String)
  | finished
deriving DecidableEq

/-- A delete goroutine: its argument `indicatorID`, what will happen to its
request, and where it stands. -/
structure Task where
  id : String
  reply : DeleteExchange
  pc : TaskPc
deriving DecidableEq

/-- The result of one step of a delete goroutine. -/
structure Step where
  task : Task
  events : List Event
  sent : Option String

/-- One step of a delete goroutine.  `closed` says whether `doneChan` is closed
and `room` whether the buffer of `errors` has a free slot.
* At the `select`: with `doneChan` closed the goroutine returns, otherwise it
  takes the `default` branch and calls `deleteThreatIndicator`.
* Inside the call: the call returns; without an error the goroutine returns,
  with an error it goes to the send.
* At the send: with room in the buffer the error is sent and the goroutine
  returns, otherwise it stays blocked. -/
def Task.step (closed room : Bool) (t : Task) : Step :=
  match t.pc with
  | .pending =>
    if closed then { task := { t with pc := .finished }, events := [], sent := none }
    else { task := { t with pc := .calling }, events := [.deleteCall t.id], sent := none }
  | .calling =>
    match deleteThreatIndicator t.id t.reply with
    | (out, none) => { task := { t with pc := .finished }, events := out, sent := none }
    | (out, some err) =>
      { task := { t with pc := .sending (failureMessage t.id err) }, events := out, sent := none }
  | .sending err =>
    if room then { task := { t with pc := .finished }, events := [], sent := some err }
    else { task := t, events := [], sent := none }
  | .finished => { task := t, events := [], sent := none }

/-- The step of the i-th goroutine of a list (nothing when there is no i-th
goroutine): the list afterwards, what was written, and what was sent. -/
def stepAt (closed room : Bool) : Nat → List Task → List Task × List Event × Option String
  | _, [] => ([], [], none)
  | 0, t :: ts => ((t.step closed room).task :: ts, (t.step closed room).events, (t.step closed room).sent)
  | i + 1, t :: ts =>
    ((t :: (stepAt closed room i ts).1), (stepAt closed room i ts).2.1, (stepAt closed room i ts).2.2)

/-- The goroutines launched by the loop `for _, id := range indicators`; the
i-th one gets the i-th identifier, and `reply i` is what will happen to its
request. -/
def launch (reply : Nat → DeleteExchange) : Nat → List String → List Task
  | _, [] => []
  | i, id :: ids => { id := id, reply := reply i, pc := .pending } :: launch reply (i + 1) ids

/-- What the scheduler does next while `processIndicators` runs: a step of the
i-th delete goroutine, or a step of the signal goroutine. -/
inductive Action where
  | run (i : Nat)
  | handler
deriving DecidableEq

/-- The state shared by the goroutines during one call of `processIndicators`:
the delete goroutines, the buffer of the channel `errors` (oldest first) and
its capacity, the signal goroutine, and what was written so far. -/
structure Pool where
  tasks : List Task
  errors : List String
  cap : Nat
  handler : HandlerPc
  events : List Event
deriving DecidableEq

/-- One scheduling decision.  A step of a goroutine that does not exist changes
nothing. -/
def Pool.act (p : Pool) (a : Action) : Pool :=
  match a with
  | .handler =>
    { p with handler := p.handler.step.1, events := p.events ++ p.handler.step.2 }
  | .run i =>
    let r := stepAt p.handler.doneClosed (decide (p.errors.length < p.cap)) i p.tasks
    { p with tasks := r.1, events := p.events ++ r.2.1, errors := p.errors ++ r.2.2.toList }

/-- The barrier `wg.Wait()`: `main` blocks until every goroutine has returned.
A goroutine returns after at most three steps of its own, so the goroutines
the schedule has left on their way are given three steps each, in the order of
their launch; a goroutine that has returned does not move. -/
def Pool.join (p : Pool) : Pool :=
  (List.range p.tasks.length).foldl
    (fun q i => ((q.act (.run i)).act (.run i)).act (.run i)) p

/-- The state after `errors := make(chan error, len(indicators))` and the launch
of one goroutine per identifier. -/
def Pool.start (indicators : List String) (reply : Nat → DeleteExchange) (h : HandlerPc) : Pool :=
  { tasks := launch reply 0 indicators
    errors := []
    cap := indicators.length
    handler := h
    events := [] }

/-- The concurrent phase of `processIndicators`: the launch, the scheduling
decisions `sched` taken while the goroutines run, and `wg.Wait()`. -/
def fanOut (indicators : List String) (reply : Nat → DeleteExchange) (sched : List Action)
    (h : HandlerPc) : Pool :=
  (sched.foldl Pool.act (Pool.start indicators reply h)).join

/-! ## The Batch Coordinator -/

/-- What one call of `processIndicators` gives: its two results, what was
written during the call, and where the signal goroutine stands afterwards. -/
structure Outcome where
  deletedCount : Int
  err : Option String
  events : List Event
  handler : HandlerPc
deriving DecidableEq

/-- The function `processIndicators`.  `g` is the value of `graphTI`, `x` what
happens to the listing request, `reply` what happens to the delete requests,
`sched` the scheduling decisions taken during the call and `h` the position of
the signal goroutine at the call.  When the listing fails or is empty no delete
goroutine exists and only the signal goroutine can move. -/
def processIndicators (g : GraphTI) (x : ListExchange) (reply : Nat → DeleteExchange)
    (sched : List Action) (h : HandlerPc) : Outcome :=
  match listThreatIndicators x with
  | (_, some err) =>
    let p := fanOut [] reply sched h
    { deletedCount := 0, err := some ("failed to list threat indicators: " ++ err),
      events := .listCall g :: p.events, handler := p.handler }
  | (indicators, none) =>
    if indicators.length == 0 then
      let p := fanOut [] reply sched h
      { deletedCount := 0, err := none, events := .listCall g :: p.events, handler := p.handler }
    else
      let p := fanOut indicators reply sched h
      { deletedCount := indicators.length, err := none,
        events := .listCall g :: (p.events ++ p.errors.map Event.failure),
        handler := p.handler }

/-- The two states of the coordinator; `STOPPED` carries the exit code of the
process. -/
inductive Phase where
  | RUNNING
  | STOPPED (exitCode : Nat)
deriving DecidableEq

/-- The state of `main`: the state of the coordinator, the variable `count`, the
signal goroutine, and everything written so far. -/
structure Coordinator where
  phase : Phase
  count : Int
  handler : HandlerPc
  trace : List Event
deriving DecidableEq

/-- What the outside world does during one iteration of the loop of `main`:
`early` steps of the signal goroutine before the `select` (those it takes after
the previous call of `processIndicators` has returned), then the inputs of
`processIndicators`. -/
structure CycleInput where
  early : Nat
  listing : ListExchange
  reply : Nat → DeleteExchange
  sched : List Action

/-- Addition of two Go `int` values, which wraps around; `int` has 64 bits on
the 64-bit platforms. -/
def addInt (a b : Int) : Int :=
  (a + b + 2 ^ 63) % 2 ^ 64 - 2 ^ 63

/-- The signal goroutine takes `n` steps. -/
def handlerSteps : Nat → Coordinator → Coordinator
  | 0, s => s
  | n + 1, s =>
    handlerSteps n { s with handler := s.handler.step.1, trace := s.trace ++ s.handler.step.2 }

/-- One iteration of the loop of `main`.  A stopped coordinator stays as it
is. -/
def cycle (g : GraphTI) (s : Coordinator) (c : CycleInput) : Coordinator :=
  match s.phase with
  | .STOPPED _ => s
  | .RUNNING =>
    let s1 := handlerSteps c.early s
    if s1.handler.doneClosed then
      { s1 with phase := .STOPPED 0 }
    else
      let r := processIndicators g c.listing c.reply c.sched s1.handler
      match r.err with
      | some err =>
        { s1 with
          phase := .STOPPED 1
          handler := r.handler
          trace := s1.trace ++ r.events ++ [.fatal ("Failed to process indicators: " ++ err)] }
      | none =>
        if r.deletedCount == 0 then
          { s1 with
            phase := .STOPPED 0
            handler := r.handler
            trace := s1.trace ++ r.events ++ [.stdout "No more indicators to delete.\n"] }
        else
          { phase := .RUNNING
            count := addInt s1.count r.deletedCount
            handler := r.handler
            trace := s1.trace ++ r.events ++
              [.stdout ("Deleted " ++ toString (addInt s1.count r.deletedCount) ++ " indicators.\n"),
               .sleep] }

/-- The loop `for` of `main`, over the iterations the outside world allows. -/
def mainLoop (g : GraphTI) (s : Coordinator) (cycles : List CycleInput) : Coordinator :=
  cycles.foldl (cycle g) s

/-- What happens to the `az account get-access-token` process: it fails, or it
prints a text whose `strings.TrimSpace` is `trimmed`. -/
inductive TokenExchange where
  | failed (err : String)
  | output (trimmed : String)
deriving DecidableEq

/-- The function `getAzureToken`: the token, or the message of its
`log.Fatalf`. -/
def getAzureToken (x : TokenExchange) : Except String String :=
  match x with
  | .failed err => .error ("Failed to get Azure access token: " ++ err)
  | .output trimmed => .ok trimmed

/-- The function `main`: token, flags, the check of the required flags, the
update of `graphTI`, and the loop. -/
def main (tok : TokenExchange) (args : CommandLine) (cycles : List CycleInput) : Coordinator :=
  match getAzureToken tok with
  | .error msg => { phase := .STOPPED 1, count := 0, handler := .waiting, trace := [.fatal msg] }
  | .ok token =>
    if token == "" then
      { phase := .STOPPED 1, count := 0, handler := .waiting,
        trace := [.fatal "Azure authentication token is required"] }
    else if missingRequired (parseFlags token args) then
      { phase := .STOPPED 1, count := 0, handler := .waiting,
        trace := [.stdout "Error: --subscription, --resourceGroup, and --workspace are required\n",
                  .usage] }
    else
      mainLoop (updateGraphTI (parseFlags token args))
        { phase := .RUNNING, count := 0, handler := .waiting, trace := [] } cycles

/-! ## Bookkeeping used by the proofs -/

/-- The sum of a measure over the goroutines of a list. -/
def total (μ : Task → Nat) (ts : List Task) : Nat :=
  (ts.map μ).sum

/-- One for a goroutine that has not reached its `select`. -/
def pend (t : Task) : Nat :=
  match t.pc with
  | .pending => 1
  | _ => 0

/-- One for a goroutine that is past its `select` and has not returned. -/
def inflight (t : Task) : Nat :=
  match t.pc with
  | .calling => 1
  | .sending _ => 1
  | _ => 0

/-- The number of steps a goroutine still has to take before it returns. -/
def remaining (t : Task) : Nat :=
  match t.pc with
  | .pending => 3
  | .calling => 2
  | .sending _ => 1
  | .finished => 0

/-- One for a goroutine with identifier `a` that has not reached its `select`. -/
def pendId (a : String) (t : Task) : Nat :=
  match t.pc with
  | .pending => if t.id = a then 1 else 0
  | _ => 0

/-- The error a goroutine sends when its request meets `reply`, if any. -/
def failureOf (id : String) (reply : DeleteExchange) : List String :=
  match (deleteThreatIndicator id reply).2 with
  | some err => [failureMessage id err]
  | none => []

/-- The failure a goroutine that is not cancelled has still to send. -/
def due (t : Task) : List String :=
  match t.pc with
  | .pending => failureOf t.id t.reply
  | .calling => failureOf t.id t.reply
  | .sending err => [err]
  | .finished => []

/-- The failure messages of a cycle in which no goroutine is cancelled, in the
order of the listing: one for each identifier whose delete returns an error. -/
def expectedFailures (reply : Nat → DeleteExchange) : Nat → List String → List String
  | _, [] => []
  | i, id :: ids => failureOf id (reply i) ++ expectedFailures reply (i + 1) ids

/-- The safety invariant of the concurrent phase: calls made and goroutines
not yet at their `select` fit in the capacity of `errors`; errors sent,
identifiers written and calls under way are covered by the calls made; and the
phase writes no failure line, calls no listing, and writes to standard output
nothing but the line of the signal goroutine. -/
def Pool.Inv (p : Pool) : Prop :=
  (deleteCalls p.events).length + total pend p.tasks ≤ p.cap ∧
  p.errors.length + (emittedIds p.events).length + total inflight p.tasks
    ≤ (deleteCalls p.events).length ∧
  failureLines p.events = [] ∧ listCalls p.events = 0 ∧
  ∀ text ∈ stdoutTexts p.events, text = "\nReceived an interrupt, stopping...\n"

/-- The state of a concurrent phase whose goroutines all found `doneChan`
closed. -/
def Pool.Cold (p : Pool) : Prop :=
  p.handler.doneClosed = true ∧ total inflight p.tasks = 0 ∧
  deleteCalls p.events = [] ∧ emittedIds p.events = [] ∧ p.errors = []

/-- The accounting of a concurrent phase during which `doneChan` stays open:
every identifier is either called or still waiting for its goroutine, and every
failure is either sent or still due.  `K` and `F` count the identifiers and the
failures of the whole phase. -/
def Pool.Quiet (K F : String → Nat) (p : Pool) : Prop :=
  p.handler = .waiting ∧
  (∀ a, (deleteCalls p.events).count a + total (pendId a) p.tasks = K a) ∧
  (∀ m, p.errors.count m + total (fun t => (due t).count m) p.tasks = F m)

/-! ## The constraints of the data model, and inputs of the scenarios -/

/-- The constraints the data model puts on a Filter: source names are not
empty, both confidence bounds lie in 0..100, the minimum does not exceed the
maximum, and the page size is positive. -/
def GraphTI.WellFormed (f : GraphTI) : Prop :=
  (∀ s ∈ f.sources, s ≠ "") ∧
  0 ≤ f.minConfidence ∧ f.minConfidence ≤ 100 ∧
  0 ≤ f.maxConfidence ∧ f.maxConfidence ≤ 100 ∧
  f.minConfidence ≤ f.maxConfidence ∧ 0 < f.pageSize

instance (f : GraphTI) : Decidable f.WellFormed := by
  unfold GraphTI.WellFormed
  infer_instance

/-- The key of a member is the field name `tag` up to the case of its ASCII
letters. -/
def namesField (tag key : String) : Prop :=
  key.toList.map Char.toLower = tag.toList.map Char.toLower

instance (tag key : String) : Decidable (namesField tag key) := by
  unfold namesField
  infer_instance

/-- A record of the listing with one member for the identifier: the members
before it, its key, the string it holds, and the members after it. -/
structure Record where
  front : List (String × Json)
  key : String
  name : String
  back : List (String × Json)

/-- The JSON object of a record. -/
def Record.json (r : Record) : Json :=
  .object (r.front ++ (r.key, .string r.name) :: r.back)

/-- The record exposes exactly one `name` member: its key is `name` up to
letter case and no other member has such a key. -/
def Record.Exposes (r : Record) : Prop :=
  namesField "name" r.key ∧ ∀ m ∈ r.front ++ r.back, ¬ namesField "name" m.1

/-- Whether a JSON value can be stored in a Go string: strings and `null` can,
numbers, booleans, arrays and objects cannot. -/
def Json.fitsString : Json → Bool
  | .string _ => true
  | .null => true
  | _ => false

/-- A listing response with status 200 and two records that carry the same
name. -/
def sameTwice : ListExchange :=
  .response 200 (.document (.object
    [("value", .array [.object [("name", .string "a")], .object [("name", .string "a")]])])
    "json: cannot unmarshal")

/-- A listing response with status 200 and the two records `id1` and `id2`. -/
def twoRecords : ListExchange :=
  .response 200 (.document (.object
    [("value", .array [.object [("name", .string "id1")], .object [("name", .string "id2")]])])
    "json: cannot unmarshal")

/-- The service deletes the first identifier and answers 404 for the second. -/
def secondNotFound : Nat → DeleteExchange :=
  fun i => if i = 1 then .response 404 else .response 200

/-- A listing response with status 200 and no record. -/
def noRecords : ListExchange :=
  .response 200 (.document (.object [("value", .array [])]) "json: cannot unmarshal")

/-- A coordinator that has just entered the loop of `main`. -/
def fresh : Coordinator :=
  { phase := .RUNNING, count := 0, handler := .waiting, trace := [] }

/-! ## Traces -/

theorem deleteCalls_append (a b : List Event) :
    deleteCalls (a ++ b) = deleteCalls a ++ deleteCalls b := by
  induction a with
  | nil => rfl
  | cons e es ih => cases e <;> simp [deleteCalls, ih]

theorem emittedIds_append (a b : List Event) :
    emittedIds (a ++ b) = emittedIds a ++ emittedIds b := by
  induction a with
  | nil => rfl
  | cons e es ih => cases e <;> simp [emittedIds, ih]

theorem failureLines_append (a b : List Event) :
    failureLines (a ++ b) = failureLines a ++ failureLines b := by
  induction a with
  | nil => rfl
  | cons e es ih => cases e <;> simp [failureLines, ih]

theorem listCalls_append (a b : List Event) :
    listCalls (a ++ b) = listCalls a + listCalls b := by
  induction a with
  | nil => simp [listCalls]
  | cons e es ih =>
    cases e <;> simp [listCalls, ih]
    omega

theorem stdoutTexts_append (a b : List Event) :
    stdoutTexts (a ++ b) = stdoutTexts a ++ stdoutTexts b := by
  induction a with
  | nil => rfl
  | cons e es ih => cases e <;> simp [stdoutTexts, ih]

theorem failureLines_map_failure (ms : List String) :
    failureLines (ms.map Event.failure) = ms := by
  induction ms with
  | nil => rfl
  | cons m ms ih => simp [failureLines, ih]

theorem deleteCalls_map_failure (ms : List String) :
    deleteCalls (ms.map Event.failure) = [] := by
  induction ms with
  | nil => rfl
  | cons m ms ih => simp [deleteCalls, ih]

theorem emittedIds_map_failure (ms : List String) :
    emittedIds (ms.map Event.failure) = [] := by
  induction ms with
  | nil => rfl
  | cons m ms ih => simp [emittedIds, ih]

theorem listCalls_map_failure (ms : List String) :
    listCalls (ms.map Event.failure) = 0 := by
  induction ms with
  | nil => rfl
  | cons m ms ih => simp [listCalls, ih]

/-! ## The Deleter -/

theorem delete_cases (id : String) (x : DeleteExchange) :
    (∃ e, deleteThreatIndicator id x = ([], some e)) ∨
    deleteThreatIndicator id x = ([.emitted id], none) := by
  cases x with
  | requestError e => exact Or.inl ⟨_, rfl⟩
  | transportError e => exact Or.inl ⟨_, rfl⟩
  | response s =>
    by_cases h : s = 200
    · right; simp [deleteThreatIndicator, h]
    · left; exact ⟨"unexpected status code: " ++ toString s, by simp [deleteThreatIndicator, h]⟩

/-! ## One step of a delete goroutine -/

theorem step_cases (c r : Bool) (t : Task) :
    (t.pc = .pending ∧ c = true ∧
      t.step c r = { task := { t with pc := .finished }, events := [], sent := none }) ∨
    (t.pc = .pending ∧ c = false ∧
      t.step c r = { task := { t with pc := .calling }, events := [.deleteCall t.id], sent := none }) ∨
    (t.pc = .calling ∧ failureOf t.id t.reply = [] ∧
      t.step c r = { task := { t with pc := .finished }, events := [.emitted t.id], sent := none }) ∨
    (∃ m, t.pc = .calling ∧ failureOf t.id t.reply = [m] ∧
      t.step c r = { task := { t with pc := .sending m }, events := [], sent := none }) ∨
    (∃ m, t.pc = .sending m ∧ r = true ∧
      t.step c r = { task := { t with pc := .finished }, events := [], sent := some m }) ∨
    (∃ m, t.pc = .sending m ∧ r = false ∧
      t.step c r = { task := t, events := [], sent := none }) ∨
    (t.pc = .finished ∧ t.step c r = { task := t, events := [], sent := none }) := by
  obtain ⟨id, reply, pc⟩ := t
  cases pc with
  | pending => cases c <;> simp [Task.step]
  | calling =>
    rcases delete_cases id reply with ⟨e, he⟩ | he
    · simp [Task.step, failureOf, he]
    · simp [Task.step, failureOf, he]
  | sending m => cases r <;> simp [Task.step]
  | finished => simp [Task.step]


theorem step_id (c r : Bool) (t : Task) :
    (t.step c r).task.id = t.id ∧ (t.step c r).task.reply = t.reply := by
  rcases step_cases c r t with ⟨_, _, hs⟩ | ⟨_, _, hs⟩ | ⟨_, _, hs⟩ | ⟨m, _, _, hs⟩ |
    ⟨m, _, _, hs⟩ | ⟨m, _, _, hs⟩ | ⟨_, hs⟩ <;> simp [hs]

/-! ## One step of the i-th goroutine -/

theorem stepAt_cases (c r : Bool) (i : Nat) (ts : List Task) :
    (ts.length ≤ i ∧ stepAt c r i ts = (ts, [], none)) ∨
    ∃ l t rs, ts = l ++ t :: rs ∧ l.length = i ∧
      stepAt c r i ts = (l ++ (t.step c r).task :: rs, (t.step c r).events, (t.step c r).sent) := by
  induction ts generalizing i with
  | nil => left; simp [stepAt]
  | cons t ts ih =>
    cases i with
    | zero => right; exact ⟨[], t, ts, rfl, rfl, rfl⟩
    | succ i =>
      rcases ih i with ⟨hlen, h⟩ | ⟨l, u, rs, hts, hl, h⟩
      · left; simp [stepAt, h, hlen]
      · right
        refine ⟨t :: l, u, rs, by simp [hts], by simp [hl], ?_⟩
        simp [stepAt, h]

theorem total_append (μ : Task → Nat) (a b : List Task) :
    total μ (a ++ b) = total μ a + total μ b := by
  simp [total]

theorem total_cons (μ : Task → Nat) (t : Task) (ts : List Task) :
    total μ (t :: ts) = μ t + total μ ts := by
  simp [total]

/-- A scheduling decision for a delete goroutine either changes nothing or
steps one goroutine in place. -/
theorem act_run_cases (p : Pool) (i : Nat) :
    (p.tasks.length ≤ i ∧ p.act (.run i) = p) ∨
    ∃ l t rs, p.tasks = l ++ t :: rs ∧ l.length = i ∧
      p.act (.run i) =
        { p with
          tasks := l ++ (t.step p.handler.doneClosed (decide (p.errors.length < p.cap))).task :: rs
          events := p.events ++ (t.step p.handler.doneClosed (decide (p.errors.length < p.cap))).events
          errors := p.errors ++
            (t.step p.handler.doneClosed (decide (p.errors.length < p.cap))).sent.toList } := by
  rcases stepAt_cases p.handler.doneClosed (decide (p.errors.length < p.cap)) i p.tasks with
    ⟨hlen, h⟩ | ⟨l, t, rs, hts, hl, h⟩
  · left; refine ⟨hlen, ?_⟩
    simp [Pool.act, h]
  · right; exact ⟨l, t, rs, hts, hl, by simp [Pool.act, h]⟩

theorem act_handler (p : Pool) :
    p.act .handler =
      { p with handler := p.handler.step.1, events := p.events ++ p.handler.step.2 } := rfl

theorem handler_step_events (h : HandlerPc) :
    deleteCalls h.step.2 = [] ∧ emittedIds h.step.2 = [] ∧ failureLines h.step.2 = [] ∧
    listCalls h.step.2 = 0 := by
  cases h <;> simp [HandlerPc.step, deleteCalls, emittedIds, failureLines, listCalls]

theorem handler_step_closed (h : HandlerPc) : h.step.1.doneClosed = true := by
  cases h <;> simp [HandlerPc.step, HandlerPc.doneClosed]

/-! ## The safety invariant -/

theorem Inv_act (p : Pool) (a : Action) (h : p.Inv) : (p.act a).Inv := by
  obtain ⟨h1, h2, h3, h4, h5⟩ := h
  cases a with
  | handler =>
    obtain ⟨e1, e2, e3, e4⟩ := handler_step_events p.handler
    simp only [act_handler, Pool.Inv, deleteCalls_append, emittedIds_append,
      failureLines_append, listCalls_append, stdoutTexts_append, e1, e2, e3, e4, h3, h4,
      List.append_nil]
    refine ⟨h1, h2, trivial, trivial, ?_⟩
    intro text ht
    rw [List.mem_append] at ht
    rcases ht with ht | ht
    · exact h5 text ht
    · cases hh : p.handler <;> simp [hh, HandlerPc.step, stdoutTexts] at ht
      exact ht
  | run i =>
    rcases act_run_cases p i with ⟨_, h⟩ | ⟨l, t, rs, hts, _, h⟩
    · rw [h]; exact ⟨h1, h2, h3, h4, h5⟩
    · rw [h]
      rw [hts] at h1 h2
      simp only [total_append, total_cons] at h1 h2
      simp only [Pool.Inv, deleteCalls_append, emittedIds_append, failureLines_append,
        listCalls_append, stdoutTexts_append, total_append, total_cons, List.length_append,
        h3, h4]
      rcases step_cases p.handler.doneClosed (decide (p.errors.length < p.cap)) t with
        ⟨hpc, _, hs⟩ | ⟨hpc, _, hs⟩ | ⟨hpc, _, hs⟩ | ⟨m, hpc, _, hs⟩ | ⟨m, hpc, _, hs⟩ |
        ⟨m, hpc, _, hs⟩ | ⟨hpc, hs⟩
      all_goals
        rw [hs]
        simp [hpc, pend, inflight, deleteCalls, emittedIds, failureLines, listCalls,
          stdoutTexts] at h1 h2 ⊢
        refine ⟨by omega, by omega, h5⟩


theorem act_run_fields (p : Pool) (i : Nat) :
    (p.act (.run i)).handler = p.handler ∧ (p.act (.run i)).cap = p.cap ∧
    (p.act (.run i)).tasks.length = p.tasks.length ∧
    (p.act (.run i)).tasks.take i = p.tasks.take i := by
  rcases act_run_cases p i with ⟨_, h⟩ | ⟨l, t, rs, hts, hl, h⟩
  · rw [h]; simp
  · rw [h, hts]; subst hl; simp

theorem foldl_act_all (P : Pool → Prop) (hP : ∀ p a, P p → P (p.act a)) :
    ∀ (sched : List Action) (p : Pool), P p → P (sched.foldl Pool.act p) := by
  intro sched
  induction sched with
  | nil => intro p h; exact h
  | cons a as ih => intro p h; exact ih _ (hP p a h)

theorem foldl_act_run (P : Pool → Prop) (hP : ∀ p i, P p → P (p.act (.run i))) :
    ∀ (sched : List Action) (p : Pool), Action.handler ∉ sched → P p →
      P (sched.foldl Pool.act p) := by
  intro sched
  induction sched with
  | nil => intro p _ h; exact h
  | cons a as ih =>
    intro p hn h
    simp only [List.mem_cons, not_or] at hn
    cases a with
    | handler => exact absurd rfl hn.1
    | run i => exact ih _ hn.2 (hP p i h)

theorem foldl_triple (P : Pool → Prop) (hP : ∀ p i, P p → P (p.act (.run i))) :
    ∀ (idx : List Nat) (p : Pool), P p →
      P (idx.foldl (fun q i => ((q.act (.run i)).act (.run i)).act (.run i)) p) := by
  intro idx
  induction idx with
  | nil => intro p h; exact h
  | cons i idx ih => intro p h; exact ih _ (hP _ i (hP _ i (hP _ i h)))

theorem join_run (P : Pool → Prop) (hP : ∀ p i, P p → P (p.act (.run i))) (p : Pool)
    (h : P p) : P p.join :=
  foldl_triple P hP _ p h

/-! ## The barrier is reached -/

theorem run_progress (p : Pool) (i : Nat) (t : Task) (hinv : p.Inv)
    (hget : p.tasks[i]? = some t) :
    ∃ u, (p.act (.run i)).tasks[i]? = some u ∧ remaining u ≤ remaining t - 1 := by
  obtain ⟨h1, h2, _, _, _⟩ := hinv
  rcases act_run_cases p i with ⟨hlen, _⟩ | ⟨l, t0, rs, hts, hl, h⟩
  · rw [List.getElem?_eq_none hlen] at hget
    exact absurd hget (by simp)
  · subst hl
    rw [hts] at hget h1 h2
    simp only [List.getElem?_append_right (le_refl _), Nat.sub_self, List.getElem?_cons_zero,
      Option.some.injEq] at hget
    subst hget
    simp only [total_append, total_cons] at h1 h2
    refine ⟨(t0.step p.handler.doneClosed (decide (p.errors.length < p.cap))).task,
      by rw [h]; simp [List.getElem?_append_right (le_refl _)], ?_⟩
    rcases step_cases p.handler.doneClosed (decide (p.errors.length < p.cap)) t0 with
      ⟨hpc, _, hs⟩ | ⟨hpc, _, hs⟩ | ⟨hpc, _, hs⟩ | ⟨m, hpc, _, hs⟩ | ⟨m, hpc, _, hs⟩ |
      ⟨m, hpc, hroom, hs⟩ | ⟨hpc, hs⟩
    all_goals
      rw [hs]
      simp [hpc, remaining, inflight, pend] at h1 h2 ⊢
    simp at hroom
    omega

theorem finished_stays (p : Pool) (a : Action) (k : Nat)
    (h : ∀ t ∈ p.tasks.take k, t.pc = .finished) :
    ∀ t ∈ (p.act a).tasks.take k, t.pc = .finished := by
  cases a with
  | handler => exact h
  | run i =>
    rcases act_run_cases p i with ⟨_, hp⟩ | ⟨l, t0, rs, hts, hl, hp⟩
    · rw [hp]; exact h
    · rw [hp]
      rw [hts] at h
      simp only [List.take_append_eq_append_take, List.mem_append] at h ⊢
      intro t ht
      rcases ht with ht | ht
      · exact h t (Or.inl ht)
      · cases hk : k - l.length with
        | zero => simp [hk] at ht
        | succ n =>
          simp only [hk, List.take_succ_cons, List.mem_cons] at ht h
          rcases ht with rfl | ht
          · have h0 := h t0 (Or.inr (Or.inl rfl))
            rcases step_cases p.handler.doneClosed (decide (p.errors.length < p.cap)) t0 with
              ⟨hpc, _, hs⟩ | ⟨hpc, _, hs⟩ | ⟨hpc, _, hs⟩ | ⟨m, hpc, _, hs⟩ | ⟨m, hpc, _, hs⟩ |
              ⟨m, hpc, _, hs⟩ | ⟨hpc, hs⟩
            all_goals
              try rw [hs]
              try simp_all
          · exact h t (Or.inr (Or.inr ht))

theorem triple_finishes (p : Pool) (k : Nat) (hinv : p.Inv) (hk : k < p.tasks.length)
    (h : ∀ t ∈ p.tasks.take k, t.pc = .finished) :
    ∀ t ∈ (((p.act (.run k)).act (.run k)).act (.run k)).tasks.take (k + 1),
      t.pc = .finished := by
  have hget : p.tasks[k]? = some p.tasks[k] := List.getElem?_eq_getElem hk
  obtain ⟨u1, g1, r1⟩ := run_progress p k _ hinv hget
  have i1 := Inv_act p (.run k) hinv
  obtain ⟨u2, g2, r2⟩ := run_progress _ k _ i1 g1
  have i2 := Inv_act _ (.run k) i1
  obtain ⟨u3, g3, r3⟩ := run_progress _ k _ i2 g2
  have hrem : remaining u3 = 0 := by
    have : remaining p.tasks[k] ≤ 3 := by
      unfold remaining; split <;> omega
    omega
  have hfin : u3.pc = .finished := by
    unfold remaining at hrem
    split at hrem <;> first | omega | assumption
  have hpre := finished_stays _ (.run k) k (finished_stays _ (.run k) k
    (finished_stays p (.run k) k h))
  intro t ht
  rw [List.take_succ, List.mem_append] at ht
  rcases ht with ht | ht
  · exact hpre t ht
  · rw [g3] at ht
    simp at ht
    rw [ht]; exact hfin

theorem join_prefix (p : Pool) (hinv : p.Inv) :
    ∀ k, k ≤ p.tasks.length →
      ((List.range k).foldl (fun q i => ((q.act (.run i)).act (.run i)).act (.run i)) p).Inv ∧
      ((List.range k).foldl
        (fun q i => ((q.act (.run i)).act (.run i)).act (.run i)) p).tasks.length
          = p.tasks.length ∧
      ∀ t ∈ ((List.range k).foldl
        (fun q i => ((q.act (.run i)).act (.run i)).act (.run i)) p).tasks.take k,
        t.pc = .finished := by
  intro k
  induction k with
  | zero => intro _; simp [hinv]
  | succ k ih =>
    intro hk
    obtain ⟨i0, l0, f0⟩ := ih (by omega)
    rw [List.range_succ, List.foldl_append]
    simp only [List.foldl_cons, List.foldl_nil]
    refine ⟨Inv_act _ _ (Inv_act _ _ (Inv_act _ _ i0)), ?_, ?_⟩
    · rw [(act_run_fields _ k).2.2.1, (act_run_fields _ k).2.2.1, (act_run_fields _ k).2.2.1, l0]
    · exact triple_finishes _ k i0 (by omega) f0

theorem join_finished (p : Pool) (hinv : p.Inv) :
    p.join.Inv ∧ p.join.tasks.length = p.tasks.length ∧ ∀ t ∈ p.join.tasks, t.pc = .finished := by
  obtain ⟨h1, h2, h3⟩ := join_prefix p hinv p.tasks.length (le_refl _)
  refine ⟨h1, h2, ?_⟩
  intro t ht
  apply h3
  rw [List.take_of_length_le (by rw [h2])]
  exact ht


/-! ## A phase without cancellation -/

theorem Quiet_run (K F : String → Nat) (p : Pool) (i : Nat) (h : p.Quiet K F) :
    (p.act (.run i)).Quiet K F := by
  obtain ⟨hw, hK, hF⟩ := h
  rcases act_run_cases p i with ⟨_, hp⟩ | ⟨l, t, rs, hts, _, hp⟩
  · rw [hp]; exact ⟨hw, hK, hF⟩
  · rw [hp]
    refine ⟨hw, ?_, ?_⟩
    · intro a
      have hK := hK a
      rw [hts] at hK
      simp only [total_append, total_cons] at hK
      simp only [deleteCalls_append, List.count_append, total_append, total_cons]
      rcases step_cases p.handler.doneClosed (decide (p.errors.length < p.cap)) t with
        ⟨hpc, hc, hs⟩ | ⟨hpc, _, hs⟩ | ⟨hpc, _, hs⟩ | ⟨m, hpc, _, hs⟩ | ⟨m, hpc, _, hs⟩ |
        ⟨m, hpc, _, hs⟩ | ⟨hpc, hs⟩
      · simp [hw, HandlerPc.doneClosed] at hc
      all_goals
        rw [hs]
        simp only [pendId, hpc, deleteCalls, List.count_nil, List.count_singleton] at hK ⊢
        try split at hK
        all_goals
          try simp_all
          try omega
    · intro m
      have hF := hF m
      rw [hts] at hF
      simp only [total_append, total_cons] at hF
      simp only [List.count_append, total_append, total_cons]
      rcases step_cases p.handler.doneClosed (decide (p.errors.length < p.cap)) t with
        ⟨hpc, hc, hs⟩ | ⟨hpc, _, hs⟩ | ⟨hpc, hf, hs⟩ | ⟨e, hpc, hf, hs⟩ | ⟨e, hpc, _, hs⟩ |
        ⟨e, hpc, _, hs⟩ | ⟨hpc, hs⟩
      · simp [hw, HandlerPc.doneClosed] at hc
      all_goals
        rw [hs]
        simp only [due, hpc, Option.toList, List.count_nil] at hF ⊢
        try rw [hf] at hF
        try simp only [List.count_nil] at hF
        try omega

theorem total_zero (μ : Task → Nat) (ts : List Task) (h : ∀ t ∈ ts, μ t = 0) :
    total μ ts = 0 := by
  induction ts with
  | nil => rfl
  | cons t ts ih =>
    rw [total_cons, h t (by simp), ih (fun u hu => h u (by simp [hu]))]

theorem launch_length (reply : Nat → DeleteExchange) (ids : List String) (i : Nat) :
    (launch reply i ids).length = ids.length := by
  induction ids generalizing i with
  | nil => rfl
  | cons a ids ih => simp [launch, ih]

theorem launch_pend (reply : Nat → DeleteExchange) (ids : List String) (i : Nat) :
    total pend (launch reply i ids) = ids.length ∧ total inflight (launch reply i ids) = 0 := by
  induction ids generalizing i with
  | nil => exact ⟨rfl, rfl⟩
  | cons a ids ih =>
    simp [launch, total_cons, (ih (i + 1)).1, (ih (i + 1)).2, pend, inflight]
    omega

theorem launch_pendId (reply : Nat → DeleteExchange) (ids : List String) (i : Nat) (a : String) :
    total (pendId a) (launch reply i ids) = ids.count a := by
  induction ids generalizing i with
  | nil => rfl
  | cons b ids ih =>
    simp only [launch, total_cons, ih (i + 1), pendId, List.count_cons]
    by_cases h : b = a
    · simp [h]; omega
    · simp [h]

theorem launch_due (reply : Nat → DeleteExchange) (ids : List String) (i : Nat) (m : String) :
    total (fun t => (due t).count m) (launch reply i ids)
      = (expectedFailures reply i ids).count m := by
  induction ids generalizing i with
  | nil => rfl
  | cons b ids ih =>
    simp only [launch, total_cons, ih (i + 1), expectedFailures, List.count_append]
    rfl

/-- At every point of every schedule the invariant holds and the capacity of
`errors` is the number of identifiers. -/
theorem schedule_safe (ids : List String) (reply : Nat → DeleteExchange) (sched : List Action)
    (h : HandlerPc) :
    (sched.foldl Pool.act (Pool.start ids reply h)).Inv ∧
    (sched.foldl Pool.act (Pool.start ids reply h)).cap = ids.length := by
  have h0 : (Pool.start ids reply h).Inv := by
    simp [Pool.Inv, Pool.start, deleteCalls, emittedIds, failureLines, listCalls, stdoutTexts,
      launch_pend]
  have hcap : ∀ (p : Pool) (a : Action), p.cap = ids.length → (p.act a).cap = ids.length := by
    intro p a hp
    cases a with
    | handler => exact hp
    | run i => rw [(act_run_fields p i).2.1]; exact hp
  exact ⟨foldl_act_all _ Inv_act sched _ h0, foldl_act_all _ hcap sched _ rfl⟩

/-- A schedule that lets every goroutine return leaves nothing to the
barrier. -/
theorem join_of_finished (p : Pool) (hfin : ∀ t ∈ p.tasks, t.pc = .finished) : p.join = p := by
  have hstep : ∀ (q : Pool) (i : Nat), q = p → q.act (.run i) = p := by
    intro q i hq
    subst hq
    rcases act_run_cases q i with ⟨_, hq⟩ | ⟨l, t, rs, hts, _, hq⟩
    · exact hq
    · have ht : t.pc = .finished := hfin t (by rw [hts]; simp)
      rcases step_cases q.handler.doneClosed (decide (q.errors.length < q.cap)) t with
        ⟨hpc, _, _⟩ | ⟨hpc, _, _⟩ | ⟨hpc, _, _⟩ | ⟨m, hpc, _, _⟩ | ⟨m, hpc, _, _⟩ |
        ⟨m, hpc, _, _⟩ | ⟨_, hs⟩
      all_goals try (rw [ht] at hpc; exact absurd hpc (by simp))
      rw [hq, hs]
      simp [← hts]
  exact join_run (fun q => q = p) hstep p rfl

theorem fanOut_safe (ids : List String) (reply : Nat → DeleteExchange) (sched : List Action)
    (h : HandlerPc) :
    (fanOut ids reply sched h).Inv ∧ (fanOut ids reply sched h).cap = ids.length ∧
    (fanOut ids reply sched h).tasks.length = ids.length ∧
    ∀ t ∈ (fanOut ids reply sched h).tasks, t.pc = .finished := by
  have h0 : (Pool.start ids reply h).Inv := by
    simp [Pool.Inv, Pool.start, deleteCalls, emittedIds, failureLines, listCalls, stdoutTexts,
      launch_pend]
  have hlen : ∀ (p : Pool) (a : Action), (p.tasks.length = ids.length ∧ p.cap = ids.length) →
      ((p.act a).tasks.length = ids.length ∧ (p.act a).cap = ids.length) := by
    intro p a hp
    cases a with
    | handler => exact hp
    | run i =>
      rw [(act_run_fields p i).2.2.1, (act_run_fields p i).2.1]
      exact hp
  have h1 := foldl_act_all _ Inv_act sched _ h0
  have h2 := foldl_act_all _ hlen sched (Pool.start ids reply h)
    ⟨launch_length reply ids 0, rfl⟩
  obtain ⟨j1, j2, j3⟩ := join_finished _ h1
  have h3 := join_run _ (fun p i hp => hlen p (.run i) hp) _ h2
  exact ⟨j1, h3.2, h3.1, j3⟩

theorem fanOut_quiet (ids : List String) (reply : Nat → DeleteExchange) (sched : List Action)
    (hs : Action.handler ∉ sched) :
    (fanOut ids reply sched .waiting).handler = .waiting ∧
    (deleteCalls (fanOut ids reply sched .waiting).events).Perm ids ∧
    (fanOut ids reply sched .waiting).errors.Perm (expectedFailures reply 0 ids) := by
  have h0 : Pool.Quiet (fun a => ids.count a) (fun m => (expectedFailures reply 0 ids).count m)
      (Pool.start ids reply .waiting) := by
    refine ⟨rfl, ?_, ?_⟩
    · intro a; simp [Pool.start, deleteCalls, launch_pendId]
    · intro m; simp [Pool.start, launch_due]
  have h1 := foldl_act_run _ (Quiet_run _ _) sched _ hs h0
  obtain ⟨q1, q2, q3⟩ := join_run _ (Quiet_run _ _) _ h1
  obtain ⟨_, _, _, hfin⟩ := fanOut_safe ids reply sched .waiting
  refine ⟨q1, ?_, ?_⟩
  · rw [List.perm_iff_count]
    intro a
    have := q2 a
    rw [total_zero _ _ (fun t ht => by simp [pendId, hfin t ht])] at this
    simpa using this
  · rw [List.perm_iff_count]
    intro m
    have := q3 m
    rw [total_zero _ _ (fun t ht => by simp [due, hfin t ht])] at this
    simpa using this

/-! ## A phase after cancellation -/

theorem Cold_act (p : Pool) (a : Action) (h : p.Cold) : (p.act a).Cold := by
  obtain ⟨hc, hi, h1, h2, h3⟩ := h
  cases a with
  | handler =>
    obtain ⟨e1, e2, _, _⟩ := handler_step_events p.handler
    refine ⟨handler_step_closed _, hi, ?_, ?_, h3⟩
    · simp [act_handler, deleteCalls_append, h1, e1]
    · simp [act_handler, emittedIds_append, h2, e2]
  | run i =>
    rcases act_run_cases p i with ⟨_, hp⟩ | ⟨l, t, rs, hts, _, hp⟩
    · rw [hp]; exact ⟨hc, hi, h1, h2, h3⟩
    · rw [hp]
      rw [hts] at hi
      simp only [total_append, total_cons] at hi
      rcases step_cases p.handler.doneClosed (decide (p.errors.length < p.cap)) t with
        ⟨hpc, _, hs⟩ | ⟨hpc, hcl, hs⟩ | ⟨hpc, _, hs⟩ | ⟨m, hpc, _, hs⟩ | ⟨m, hpc, _, hs⟩ |
        ⟨m, hpc, _, hs⟩ | ⟨hpc, hs⟩
      · rw [hs]
        simp only [Pool.Cold, hc, deleteCalls_append, emittedIds_append, total_append,
          total_cons, h1, h2, h3]
        simp [inflight, hpc, deleteCalls, emittedIds] at hi ⊢
        omega
      · rw [hc] at hcl
        exact absurd hcl (by simp)
      · simp [inflight, hpc] at hi
      · simp [inflight, hpc] at hi
      · simp [inflight, hpc] at hi
      · simp [inflight, hpc] at hi
      · rw [hs]
        simp only [Pool.Cold, hc, deleteCalls_append, emittedIds_append, total_append,
          total_cons, h1, h2, h3]
        simp [inflight, hpc, deleteCalls, emittedIds] at hi ⊢
        omega

theorem fanOut_cold (ids : List String) (reply : Nat → DeleteExchange) (sched : List Action)
    (h : HandlerPc) (hfired : h.doneClosed = true ∨ ∃ rest, sched = Action.handler :: rest) :
    (fanOut ids reply sched h).Cold := by
  have hrun : ∀ (p : Pool) (i : Nat), p.Cold → (p.act (.run i)).Cold :=
    fun p i hp => Cold_act p (.run i) hp
  rcases hfired with hcl | ⟨rest, hrest⟩
  · have h0 : (Pool.start ids reply h).Cold :=
      ⟨hcl, (launch_pend reply ids 0).2, rfl, rfl, rfl⟩
    exact join_run _ hrun _ (foldl_act_all _ Cold_act sched _ h0)
  · subst hrest
    have h0 : ((Pool.start ids reply h).act .handler).Cold := by
      obtain ⟨e1, e2, _, _⟩ := handler_step_events h
      exact ⟨handler_step_closed _, (launch_pend reply ids 0).2,
        by simpa [act_handler, Pool.start] using e1,
        by simpa [act_handler, Pool.start] using e2, rfl⟩
    exact join_run _ hrun _ (foldl_act_all _ Cold_act rest _ h0)

theorem addInt_small (a b : Int) (ha : 0 ≤ a) (hb : 0 ≤ b) (h : a + b < 2 ^ 63) :
    addInt a b = a + b := by
  unfold addInt
  omega

/-! ## `processIndicators` by cases of the listing -/

theorem processIndicators_listed (g : GraphTI) (x : ListExchange) (reply : Nat → DeleteExchange)
    (sched : List Action) (h : HandlerPc) (ids : List String)
    (hlist : listThreatIndicators x = (ids, none)) (hne : ids ≠ []) :
    processIndicators g x reply sched h =
      { deletedCount := ids.length
        err := none
        events := .listCall g ::
          ((fanOut ids reply sched h).events ++ (fanOut ids reply sched h).errors.map Event.failure)
        handler := (fanOut ids reply sched h).handler } := by
  simp [processIndicators, hlist, hne]

theorem processIndicators_failed (g : GraphTI) (x : ListExchange) (reply : Nat → DeleteExchange)
    (sched : List Action) (h : HandlerPc) (ids : List String) (e : String)
    (hfail : listThreatIndicators x = (ids, some e)) :
    processIndicators g x reply sched h =
      { deletedCount := 0
        err := some ("failed to list threat indicators: " ++ e)
        events := .listCall g :: (fanOut [] reply sched h).events
        handler := (fanOut [] reply sched h).handler } := by
  simp [processIndicators, hfail]

theorem processIndicators_empty (g : GraphTI) (x : ListExchange) (reply : Nat → DeleteExchange)
    (sched : List Action) (h : HandlerPc) (hlist : listThreatIndicators x = ([], none)) :
    processIndicators g x reply sched h =
      { deletedCount := 0
        err := none
        events := .listCall g :: (fanOut [] reply sched h).events
        handler := (fanOut [] reply sched h).handler } := by
  simp [processIndicators, hlist]

/-- While no delete goroutine exists nothing is called, written by the Deleter
or reported; only the signal goroutine may write its line. -/
theorem idle_events (reply : Nat → DeleteExchange) (sched : List Action) (h : HandlerPc) :
    deleteCalls (fanOut [] reply sched h).events = [] ∧
    emittedIds (fanOut [] reply sched h).events = [] ∧
    failureLines (fanOut [] reply sched h).events = [] ∧
    listCalls (fanOut [] reply sched h).events = 0 ∧
    ∀ text ∈ stdoutTexts (fanOut [] reply sched h).events,
      text = "\nReceived an interrupt, stopping...\n" := by
  obtain ⟨⟨h1, h2, h3, h4, h5⟩, hcap, _, _⟩ := fanOut_safe [] reply sched h
  rw [hcap] at h1
  simp only [List.length_nil, Nat.le_zero, Nat.add_eq_zero, List.length_eq_zero] at h1
  rw [h1.1] at h2
  simp only [List.length_nil, Nat.le_zero, Nat.add_eq_zero, List.length_eq_zero] at h2
  exact ⟨h1.1, h2.1.2, h3, h4, h5⟩

theorem handlerSteps_spec (n : Nat) (s : Coordinator) :
    (handlerSteps n s).phase = s.phase ∧ (handlerSteps n s).count = s.count ∧
    deleteCalls (handlerSteps n s).trace = deleteCalls s.trace ∧
    listCalls (handlerSteps n s).trace = listCalls s.trace ∧
    ((s.handler.doneClosed = true ∨ 0 < n) → (handlerSteps n s).handler.doneClosed = true) := by
  induction n generalizing s with
  | zero => simp [handlerSteps]
  | succ n ih =>
    obtain ⟨i1, i2, i3, i4, i5⟩ := ih
      { s with handler := s.handler.step.1, trace := s.trace ++ s.handler.step.2 }
    obtain ⟨e1, _, _, e4⟩ := handler_step_events s.handler
    simp only [handlerSteps]
    refine ⟨i1, i2, ?_, ?_, fun _ => i5 (Or.inl (handler_step_closed _))⟩
    · rw [i3, deleteCalls_append, e1, List.append_nil]
    · rw [i4, listCalls_append, e4, Nat.add_zero]

theorem cycle_stopped (g : GraphTI) (s : Coordinator) (c : CycleInput)
    (h : s.phase ≠ .RUNNING) : cycle g s c = s := by
  unfold cycle
  split
  · rfl
  · next hr => exact absurd hr h

theorem mainLoop_stopped (g : GraphTI) (s : Coordinator) (cycles : List CycleInput)
    (h : s.phase ≠ .RUNNING) : mainLoop g s cycles = s := by
  induction cycles with
  | nil => rfl
  | cons c cs ih =>
    simp only [mainLoop, List.foldl_cons] at ih ⊢
    rw [cycle_stopped g s c h]
    exact ih

theorem processIndicators_listCalls (g : GraphTI) (x : ListExchange)
    (reply : Nat → DeleteExchange) (sched : List Action) (h : HandlerPc) :
    listCalls (processIndicators g x reply sched h).events = 1 := by
  obtain ⟨_, _, _, i4, _⟩ := idle_events reply sched h
  rcases hx : listThreatIndicators x with ⟨ids, _ | e⟩
  · by_cases hne : ids = []
    · subst hne
      rw [processIndicators_empty g x reply sched h hx]
      simp [listCalls, i4]
    · obtain ⟨⟨_, _, _, j4, _⟩, _⟩ := fanOut_safe ids reply sched h
      rw [processIndicators_listed g x reply sched h ids hx hne]
      simp [listCalls, listCalls_append, j4, listCalls_map_failure]
  · rw [processIndicators_failed g x reply sched h ids e hx]
    simp [listCalls, i4]

/-- A cycle that finds `doneChan` open calls the Lister exactly once. -/
theorem cycle_lists_once (g : GraphTI) (s : Coordinator) (c : CycleInput)
    (hrun : s.phase = .RUNNING) (hopen : s.handler = .waiting) (hearly : c.early = 0) :
    listCalls (cycle g s c).trace = listCalls s.trace + 1 := by
  have hl := processIndicators_listCalls g c.listing c.reply c.sched .waiting
  unfold cycle
  simp only [hrun, hearly, handlerSteps, hopen, HandlerPc.doneClosed]
  simp only [bne_self_eq_false, Bool.false_eq_true, if_false]
  split
  · simp [listCalls_append, hl, listCalls]
  · split <;> simp [listCalls_append, hl, listCalls]

theorem expectedFailures_mem (reply : Nat → DeleteExchange) (ids : List String) (k : Nat)
    (m : String) (hm : m ∈ expectedFailures reply k ids) :
    ∃ i id e, ids[i]? = some id ∧ (deleteThreatIndicator id (reply (k + i))).2 = some e ∧
      m = "failed to delete indicator with ID " ++ id ++ ": " ++ e := by
  induction ids generalizing k with
  | nil => simp [expectedFailures] at hm
  | cons a ids ih =>
    simp only [expectedFailures, List.mem_append] at hm
    rcases hm with hm | hm
    · refine ⟨0, a, ?_⟩
      unfold failureOf at hm
      split at hm
      · next e he =>
        simp only [List.mem_singleton] at hm
        exact ⟨e, by simp, he, by rw [hm]; rfl⟩
      · simp at hm
    · obtain ⟨i, id, e, h1, h2, h3⟩ := ih (k + 1) hm
      refine ⟨i + 1, id, e, by simpa using h1, ?_, h3⟩
      have hk : k + (i + 1) = k + 1 + i := by omega
      rw [hk]; exact h2

/-! ## The claims -/

/-- C1 as stated fails on the code: when the listing holds the identifier `a`
twice, `deleteThreatIndicator` is called with `a` twice, so the identifiers of
the calls are not distinct and `a` is deleted twice. -/
theorem repeated_identifier_deleted_twice :
    listThreatIndicators sameTwice = (["a", "a"], none) ∧
    deleteCalls (processIndicators graphTI sameTwice (fun _ => .response 200)
      [.run 0, .run 1, .run 0, .run 1] .waiting).events = ["a", "a"] ∧
    ¬ (deleteCalls (processIndicators graphTI sameTwice (fun _ => .response 200)
      [.run 0, .run 1, .run 0, .run 1] .waiting).events).Nodup := by
  decide

/-- C1 as amended. Fan-out cardinality: when the listing returns the
identifiers `ids` (at least one) and `doneChan` stays open, one call of
`processIndicators` calls `deleteThreatIndicator` exactly once per entry of the
listing: as many calls as entries, and the identifiers passed are the entries
of the listing up to order, repetitions counted; they are pairwise distinct
exactly when the listed identifiers are. -/
theorem fanout_cardinality (g : GraphTI) (x : ListExchange) (reply : Nat → DeleteExchange)
    (sched : List Action) (ids : List String)
    (hlist : listThreatIndicators x = (ids, none)) (hne : ids ≠ [])
    (hquiet : Action.handler ∉ sched) :
    (deleteCalls (processIndicators g x reply sched .waiting).events).length = ids.length ∧
    (deleteCalls (processIndicators g x reply sched .waiting).events).Perm ids ∧
    (∀ a, (deleteCalls (processIndicators g x reply sched .waiting).events).count a
      = ids.count a) ∧
    ((deleteCalls (processIndicators g x reply sched .waiting).events).Nodup ↔ ids.Nodup) := by
  obtain ⟨_, hperm, _⟩ := fanOut_quiet ids reply sched hquiet
  have hev : deleteCalls (processIndicators g x reply sched .waiting).events
      = deleteCalls (fanOut ids reply sched .waiting).events := by
    rw [processIndicators_listed g x reply sched .waiting ids hlist hne]
    simp [deleteCalls, deleteCalls_append, deleteCalls_map_failure]
  rw [hev]
  exact ⟨hperm.length_eq, hperm, fun a => hperm.count_eq a, hperm.nodup_iff⟩

/-- C1 as amended, on the listing `id1`, `id2` with the second goroutine
scheduled first. -/
theorem fanout_cardinality_witness :
    (listThreatIndicators twoRecords = (["id1", "id2"], none) ∧ ["id1", "id2"] ≠ [] ∧
      Action.handler ∉ [Action.run 1, Action.run 0]) ∧
    (deleteCalls (processIndicators graphTI twoRecords secondNotFound
        [.run 1, .run 0] .waiting).events).Perm ["id1", "id2"] ∧
    deleteCalls (processIndicators graphTI twoRecords secondNotFound
        [.run 1, .run 0] .waiting).events = ["id2", "id1"] :=
  ⟨⟨by decide, by decide, by decide⟩,
    (fanout_cardinality graphTI twoRecords secondNotFound [.run 1, .run 0] ["id1", "id2"]
      (by decide) (by decide) (by decide)).2.1,
    by decide⟩

/-- C2. Partial failure is tolerated and over-counted: when the listing returns
the identifiers `ids` (at least one) and `doneChan` stays open, then whatever
happens to the delete requests, `processIndicators` returns the count
`len(ids)` and no error; the failure lines it prints are, up to order, one line
per identifier whose delete returned an error, each naming its identifier; and
the loop of `main` adds `len(ids)` to `count` (a total that fits the Go `int`),
prints the new total, sleeps, stays RUNNING, and calls the Lister again in the
next cycle that finds `doneChan` open. -/
theorem delete_failures_tolerated (g : GraphTI) (x : ListExchange)
    (reply : Nat → DeleteExchange) (sched : List Action) (ids : List String) (s : Coordinator)
    (hlist : listThreatIndicators x = (ids, none)) (hne : ids ≠ [])
    (hquiet : Action.handler ∉ sched)
    (hrun : s.phase = .RUNNING) (hopen : s.handler = .waiting)
    (hcount : 0 ≤ s.count) (hfits : s.count + ids.length < 2 ^ 63) :
    (processIndicators g x reply sched .waiting).deletedCount = ids.length ∧
    (processIndicators g x reply sched .waiting).err = none ∧
    (failureLines (processIndicators g x reply sched .waiting).events).Perm
      (expectedFailures reply 0 ids) ∧
    (∀ m ∈ failureLines (processIndicators g x reply sched .waiting).events,
      ∃ i id e, ids[i]? = some id ∧ (deleteThreatIndicator id (reply i)).2 = some e ∧
        m = "failed to delete indicator with ID " ++ id ++ ": " ++ e) ∧
    cycle g s { early := 0, listing := x, reply := reply, sched := sched } =
      { phase := .RUNNING
        count := s.count + ids.length
        handler := .waiting
        trace := s.trace ++ (processIndicators g x reply sched .waiting).events ++
          [.stdout ("Deleted " ++ toString (s.count + ids.length) ++ " indicators.\n"),
           .sleep] } ∧
    (∀ next : CycleInput, next.early = 0 →
      listCalls (cycle g (cycle g s
          { early := 0, listing := x, reply := reply, sched := sched }) next).trace
        = listCalls (cycle g s
          { early := 0, listing := x, reply := reply, sched := sched }).trace + 1) ∧
    (∀ rest : List CycleInput,
      mainLoop g s ({ early := 0, listing := x, reply := reply, sched := sched } :: rest) =
        mainLoop g
          { phase := .RUNNING
            count := s.count + ids.length
            handler := .waiting
            trace := s.trace ++ (processIndicators g x reply sched .waiting).events ++
              [.stdout ("Deleted " ++ toString (s.count + ids.length) ++ " indicators.\n"),
               .sleep] } rest) ∧
    (∀ next : CycleInput, next.early = 0 →
      listCalls (mainLoop g s
          [{ early := 0, listing := x, reply := reply, sched := sched }, next]).trace
        = listCalls s.trace + 2) ∧
    (∀ (token : String) (args : CommandLine) (rest : List CycleInput),
      token ≠ "" → missingRequired (parseFlags token args) = false →
      g = updateGraphTI (parseFlags token args) → s = fresh →
      main (.output token) args
          ({ early := 0, listing := x, reply := reply, sched := sched } :: rest) =
        mainLoop g
          { phase := .RUNNING
            count := ids.length
            handler := .waiting
            trace := (processIndicators g x reply sched .waiting).events ++
              [.stdout ("Deleted " ++ toString (ids.length : Int) ++ " indicators.\n"),
               .sleep] } rest) := by
  obtain ⟨hh, _, hperm⟩ := fanOut_quiet ids reply sched hquiet
  obtain ⟨⟨_, _, hfl, _, _⟩, _⟩ := fanOut_safe ids reply sched .waiting
  have hp := processIndicators_listed g x reply sched .waiting ids hlist hne
  have hlines : failureLines (processIndicators g x reply sched .waiting).events
      = (fanOut ids reply sched .waiting).errors := by
    rw [hp]
    simp [failureLines, failureLines_append, hfl, failureLines_map_failure]
  have hlen : (ids.length : Int) ≠ 0 := by
    cases ids with
    | nil => exact absurd rfl hne
    | cons a as => simp; omega
  have hadd := addInt_small s.count ids.length hcount (by omega) hfits
  have hcycle : cycle g s { early := 0, listing := x, reply := reply, sched := sched } =
      { phase := .RUNNING
        count := s.count + ids.length
        handler := .waiting
        trace := s.trace ++ (processIndicators g x reply sched .waiting).events ++
          [.stdout ("Deleted " ++ toString (s.count + ids.length) ++ " indicators.\n"),
           .sleep] } := by
    unfold cycle
    simp only [hrun, handlerSteps, hopen, HandlerPc.doneClosed]
    rw [hp]
    simp [hlen, hadd, hh]
  have hloop : ∀ rest : List CycleInput,
      mainLoop g s ({ early := 0, listing := x, reply := reply, sched := sched } :: rest) =
        mainLoop g
          { phase := .RUNNING
            count := s.count + ids.length
            handler := .waiting
            trace := s.trace ++ (processIndicators g x reply sched .waiting).events ++
              [.stdout ("Deleted " ++ toString (s.count + ids.length) ++ " indicators.\n"),
               .sleep] } rest := by
    intro rest
    rw [← hcycle]
    rfl
  refine ⟨by rw [hp], by rw [hp], ?_, ?_, hcycle, ?_, hloop, ?_, ?_⟩
  · rw [hlines]; exact hperm
  · intro m hm
    rw [hlines] at hm
    obtain ⟨i, id, e, h1, h2, h3⟩ := expectedFailures_mem reply ids 0 m (hperm.mem_iff.mp hm)
    exact ⟨i, id, e, h1, by simpa using h2, h3⟩
  · intro next hnext
    exact cycle_lists_once g _ next (by rw [hcycle]) (by rw [hcycle]) hnext
  · intro next hnext
    have h1 := cycle_lists_once g s { early := 0, listing := x, reply := reply, sched := sched }
      hrun hopen rfl
    have h2 := cycle_lists_once g
      (cycle g s { early := 0, listing := x, reply := reply, sched := sched }) next
      (by rw [hcycle]) (by rw [hcycle]) hnext
    simp only [mainLoop, List.foldl_cons, List.foldl_nil]
    rw [h2, h1]
  · intro token args rest htok hreq hg hs
    have hmain : main (.output token) args
        ({ early := 0, listing := x, reply := reply, sched := sched } :: rest) =
        mainLoop g s ({ early := 0, listing := x, reply := reply, sched := sched } :: rest) := by
      have hb : (token == "") = false := by simpa using htok
      simp only [main, getAzureToken, hb, hreq, Bool.false_eq_true, if_false, hg, hs, fresh]
    rw [hmain, hloop rest, hs]
    simp [fresh]

/-- C2, on the scenario of the specification: the listing returns `id1` and
`id2`, the delete of `id2` is answered 404; one failure line names `id2`, the
loop of `main` reports "Deleted 2 indicators." and goes on to the next listing,
which is empty. -/
theorem delete_failures_witness :
    (listThreatIndicators twoRecords = (["id1", "id2"], none) ∧ ["id1", "id2"] ≠ [] ∧
      Action.handler ∉ [Action.run 1, Action.run 0] ∧ fresh.phase = .RUNNING ∧
      fresh.handler = .waiting ∧ 0 ≤ fresh.count ∧
      fresh.count + (["id1", "id2"].length : Int) < 2 ^ 63) ∧
    failureLines (processIndicators graphTI twoRecords secondNotFound
        [.run 1, .run 0] .waiting).events
      = ["failed to delete indicator with ID id2: unexpected status code: 404"] ∧
    mainLoop graphTI fresh
        [{ early := 0, listing := twoRecords, reply := secondNotFound,
           sched := [.run 1, .run 0] },
         { early := 0, listing := noRecords, reply := secondNotFound, sched := [] }]
      = { phase := .STOPPED 0
          count := 2
          handler := .waiting
          trace := [.listCall graphTI, .deleteCall "id2", .deleteCall "id1", .emitted "id1",
            .failure "failed to delete indicator with ID id2: unexpected status code: 404",
            .stdout "Deleted 2 indicators.\n", .sleep,
            .listCall graphTI, .stdout "No more indicators to delete.\n"] } ∧
    main (.output "tok")
        { source := none, subscription := some "sub", resourceGroup := some "rg",
          workspace := some "ws", minConfidence := none, maxConfidence := none }
        [{ early := 0, listing := twoRecords, reply := secondNotFound,
           sched := [.run 1, .run 0] }]
      = { phase := .RUNNING
          count := 2
          handler := .waiting
          trace := [.listCall graphTI, .deleteCall "id2", .deleteCall "id1", .emitted "id1",
            .failure "failed to delete indicator with ID id2: unexpected status code: 404",
            .stdout "Deleted 2 indicators.\n", .sleep] } := by
  have h := delete_failures_tolerated graphTI twoRecords secondNotFound [.run 1, .run 0]
    ["id1", "id2"] fresh (by decide) (by decide) (by decide) (by decide) (by decide)
    (by decide) (by decide)
  exact ⟨⟨by decide, by decide, by decide, by decide, by decide, by decide, by decide⟩,
    List.Perm.eq_singleton h.2.2.1,
    (h.2.2.2.2.2.2.1
      [{ early := 0, listing := noRecords, reply := secondNotFound, sched := [] }]).trans
      (by decide),
    (h.2.2.2.2.2.2.2.2 "tok"
      { source := none, subscription := some "sub", resourceGroup := some "rg",
        workspace := some "ws", minConfidence := none, maxConfidence := none }
      [] (by decide) (by decide) (by decide) rfl).trans (by decide)⟩

theorem listing_status (s : Nat) (b : Body) :
    (s ≠ 200 → listThreatIndicators (.response s b)
        = ([], some ("unexpected status code: " ++ toString s))) ∧
    ((listThreatIndicators (.response s b)).2 = none → s = 200) ∧
    ((listThreatIndicators (.response s b)).1 ≠ [] → s = 200) := by
  by_cases h : s = 200
  · simp [h]
  · simp [listThreatIndicators, h]

/-- C3. Lister success is strictly HTTP 200: for a response with status `s` and
body `b`, when `s` is not 200 `listThreatIndicators` returns no identifier and
the error "unexpected status code: s", whatever `b` is; and a result without
error, or with an identifier, is only possible when `s` is 200. -/
theorem lister_success_is_200 (s : Nat) (b : Body) :
    (s ≠ 200 → listThreatIndicators (.response s b)
        = ([], some ("unexpected status code: " ++ toString s))) ∧
    ((listThreatIndicators (.response s b)).2 = none → s = 200) ∧
    ((listThreatIndicators (.response s b)).1 ≠ [] → s = 200) :=
  listing_status s b

/-- C3, on a 401 response whose body is a well-formed listing of one record. -/
theorem lister_success_is_200_witness :
    401 ≠ 200 ∧
    listThreatIndicators (.response 401 (.document (.object
        [("value", .array [.object [("name", .string "id1")]])]) "json: cannot unmarshal"))
      = ([], some "unexpected status code: 401") :=
  ⟨by decide, (lister_success_is_200 401 _).1 (by decide)⟩

theorem matchesField_iff (tag key : String) :
    matchesField tag key = true ↔ namesField tag key := by
  simp [matchesField, asciiFold, namesField]

theorem fieldValues_none (tag : String) (ms : List (String × Json))
    (h : ∀ m ∈ ms, ¬ namesField tag m.1) : fieldValues tag ms = [] := by
  unfold fieldValues
  rw [List.map_eq_nil_iff, List.filter_eq_nil_iff]
  intro m hm hmatch
  exact h m hm ((matchesField_iff tag m.1).mp hmatch)

/-- The decoder selects the one member whose key names the field and skips the
members around it. -/
theorem fieldValues_one (tag key : String) (v : Json) (front back : List (String × Json))
    (hkey : namesField tag key) (hone : ∀ m ∈ front ++ back, ¬ namesField tag m.1) :
    fieldValues tag (front ++ (key, v) :: back) = [v] := by
  have hf := fieldValues_none tag front (fun m hm => hone m (by simp [hm]))
  have hb := fieldValues_none tag back (fun m hm => hone m (by simp [hm]))
  unfold fieldValues at hf hb ⊢
  rw [List.filter_append, List.map_append, hf, List.filter_cons,
    if_pos ((matchesField_iff tag key).mpr hkey), List.map_cons, hb]
  rfl

theorem decodeItems_records (recs : List Record) (h : ∀ r ∈ recs, r.Exposes)
    (old : List Item) :
    decodeItems old false (recs.map Record.json)
      = (recs.map (fun r => { ID := r.name }), false) := by
  induction recs generalizing old with
  | nil => simp [decodeItems]
  | cons r rs ih =>
    obtain ⟨hk, ho⟩ := h r (by simp)
    have hr := fieldValues_one "name" r.key (.string r.name) r.front r.back hk ho
    have ih1 := ih (fun q hq => h q (by simp [hq])) old.tail
    simp [decodeItems, decodeItem, Record.json, hr, storeName, ih1]

theorem storeName_keeps (js : List Json) (cur : String × Bool) (h : cur.2 = true) :
    (js.foldl storeName cur).2 = true := by
  induction js generalizing cur with
  | nil => exact h
  | cons j js ih =>
    apply ih
    cases j <;> simp [storeName, h]

theorem storeName_bad (js : List Json) (cur : String × Bool)
    (h : ∃ j ∈ js, j.fitsString = false) : (js.foldl storeName cur).2 = true := by
  induction js generalizing cur with
  | nil => simp at h
  | cons j js ih =>
    obtain ⟨k, hk, hbad⟩ := h
    simp only [List.mem_cons] at hk
    rcases hk with rfl | hk
    · rw [List.foldl_cons]
      apply storeName_keeps
      cases k <;> simp [storeName, Json.fitsString] at hbad ⊢
    · exact ih _ ⟨k, hk, hbad⟩

theorem decodeItem_keeps (old : Item) (j : Json) : (decodeItem old true j).2 = true := by
  cases j <;> simp [decodeItem]
  exact storeName_keeps _ _ rfl

theorem decodeItems_keeps (js : List Json) (old : List Item) :
    (decodeItems old true js).2 = true := by
  induction js generalizing old with
  | nil => rfl
  | cons j js ih =>
    simp only [decodeItems, decodeItem_keeps]
    exact ih _

/-- A record with a `name` member that does not fit a string makes the decoding
of the array report a type error, whatever comes before and after it. -/
theorem decodeItems_bad (objs : List (List (String × Json))) (old : List Item) (bad : Bool)
    (h : ∃ o ∈ objs, ∃ m ∈ o, namesField "name" m.1 ∧ m.2.fitsString = false) :
    (decodeItems old bad (objs.map Json.object)).2 = true := by
  induction objs generalizing old bad with
  | nil => simp at h
  | cons o objs ih =>
    obtain ⟨q, hq, m, hm, hname, hbad⟩ := h
    simp only [List.mem_cons] at hq
    simp only [List.map_cons, decodeItems]
    rcases hq with rfl | hq
    · have hd : (decodeItem (old.headD { ID := "" }) bad (.object q)).2 = true := by
        simp only [decodeItem]
        apply storeName_bad
        refine ⟨m.2, ?_, hbad⟩
        unfold fieldValues
        rw [List.mem_map]
        exact ⟨m, List.mem_filter.mpr ⟨hm, (matchesField_iff "name" m.1).mpr hname⟩, rfl⟩
      rw [hd]
      exact decodeItems_keeps _ _
    · exact ih _ _ ⟨q, hq, m, hm, hname, hbad⟩

theorem decodeItems_length (js : List Json) (old : List Item) (bad : Bool) :
    (decodeItems old bad js).1.length = js.length := by
  induction js generalizing old bad with
  | nil => rfl
  | cons j js ih => simp [decodeItems, ih]

/-- A `value` member that comes after a shorter one brings back the elements the
backing array still holds: here the third array decodes its second, empty
record into the element that holds "b". -/
theorem later_value_member_reuses_elements :
    listThreatIndicators (.response 200 (.document (.object
        [("value", .array [.object [("name", .string "a")], .object [("name", .string "b")]]),
         ("value", .array [.object []]),
         ("value", .array [.object [], .object []])])
        "json: cannot unmarshal"))
      = (["a", "b"], none) := by
  decide

/-- C4 as stated fails on the code.  A body whose `value` array holds the one
record with `name` 1 gives an error and no identifier instead of one
identifier; and for the record with `name` "a" and `NAME` "b" the identifier
returned is "b", not the `name` member. -/
theorem name_member_not_always_returned :
    listThreatIndicators (.response 200 (.document (.object
        [("value", .array [.object [("name", .number "1")]])])
        "json: cannot unmarshal number into Go struct field"))
      = ([], some ("failed to unmarshal response: " ++
          "json: cannot unmarshal number into Go struct field")) ∧
    listThreatIndicators (.response 200 (.document (.object
        [("value", .array [.object [("name", .string "a"), ("NAME", .string "b")]])])
        "json: cannot unmarshal"))
      = (["b"], none) := by
  decide

/-- C4 as amended. Identifier extraction: for a 200 response whose body is a
JSON object with exactly one member named `value` up to letter case, an array
of records that each have exactly one member named `name` up to letter case,
holding a string, `listThreatIndicators` returns exactly one identifier per
record, the i-th being that string of the i-th record, in the order of the
response and whatever the other members of the object and of the records are.
When instead a record of the array has a member named `name` that holds a
number, a boolean, an array or an object, the call fails and returns no
identifier; and so does a body that is not well-formed JSON. -/
theorem identifier_extraction (front back : List (String × Json)) (key : String)
    (recs : List Record) (mismatch : String)
    (hkey : namesField "value" key)
    (hone : ∀ m ∈ front ++ back, ¬ namesField "value" m.1)
    (hrecs : ∀ r ∈ recs, r.Exposes) :
    listThreatIndicators (.response 200 (.document
        (.object (front ++ (key, .array (recs.map Record.json)) :: back)) mismatch))
      = (recs.map Record.name, none) ∧
    (listThreatIndicators (.response 200 (.document
        (.object (front ++ (key, .array (recs.map Record.json)) :: back)) mismatch))).1.length
      = recs.length ∧
    (∀ objs : List (List (String × Json)),
      (∃ o ∈ objs, ∃ m ∈ o, namesField "name" m.1 ∧ m.2.fitsString = false) →
      listThreatIndicators (.response 200 (.document
          (.object (front ++ (key, .array (objs.map Json.object)) :: back)) mismatch))
        = ([], some ("failed to unmarshal response: " ++ mismatch))) ∧
    (∀ e, listThreatIndicators (.response 200 (.malformed e))
        = ([], some ("failed to unmarshal response: " ++ e))) := by
  have hsel : ∀ v : Json, fieldValues "value" (front ++ (key, v) :: back) = [v] :=
    fun v => fieldValues_one "value" key v front back hkey hone
  have h1 : listThreatIndicators (.response 200 (.document
        (.object (front ++ (key, .array (recs.map Record.json)) :: back)) mismatch))
      = (recs.map Record.name, none) := by
    cases recs with
    | nil => simp [listThreatIndicators, Unmarshal, decodeResult, hsel, storeValue, Slice.elems]
    | cons r rs =>
      have hd := decodeItems_records (r :: rs) hrecs []
      simp only [List.map_cons] at hd
      simp [listThreatIndicators, Unmarshal, decodeResult, hsel, storeValue, Slice.elems, hd,
        List.map_map, Function.comp_def]
  refine ⟨h1, by rw [h1]; simp, ?_, ?_⟩
  · intro objs hbad
    cases objs with
    | nil => simp at hbad
    | cons o os =>
      have hd := decodeItems_bad (o :: os) [] false hbad
      simp only [List.map_cons] at hd
      simp [listThreatIndicators, Unmarshal, decodeResult, hsel, storeValue, hd]
  · intro e; simp [listThreatIndicators]

/-- C4 as amended, on a response with two records that carry other members as
well, one of them with the key `Name`. -/
theorem identifier_extraction_witness :
    (namesField "value" "value" ∧
      (∀ m ∈ [("nextLink", Json.null)] ++ ([] : List (String × Json)),
        ¬ namesField "value" m.1)) ∧
    listThreatIndicators (.response 200 (.document (.object
        [("nextLink", .null),
         ("value", .array
           [.object [("id", .string "/subscriptions/x/a"), ("name", .string "a"),
                     ("etag", .string "e1")],
            .object [("Name", .string "b"),
                     ("properties", .object [("confidence", .number "7")])]])])
        "json: cannot unmarshal"))
      = (["a", "b"], none) :=
  ⟨⟨by decide, by decide⟩,
    (identifier_extraction [("nextLink", .null)] [] "value"
      [{ front := [("id", .string "/subscriptions/x/a")], key := "name", name := "a",
         back := [("etag", .string "e1")] },
       { front := [], key := "Name", name := "b",
         back := [("properties", .object [("confidence", .number "7")])] }]
      "json: cannot unmarshal"
      (by decide) (by decide)
      (by
        intro r hr
        simp only [List.mem_cons, List.mem_singleton, List.not_mem_nil, or_false] at hr
        rcases hr with rfl | rfl <;> exact ⟨by decide, by decide⟩)).1⟩

/-- C5. Listing failure is fatal and precedes any deletion: when the listing
fails with the error `e` in a cycle the loop enters, `processIndicators`
returns an error without calling `deleteThreatIndicator`; the loop logs the
error fatally and stops with exit code 1, having made this one listing call, no
delete call, no change of `count` and no line on standard output but possibly
that of the signal goroutine; and the inputs meant for further cycles are never
used.  A transport error, a status other than 200 and a malformed body are
such failures. -/
theorem listing_failure_fatal (g : GraphTI) (x : ListExchange) (reply : Nat → DeleteExchange)
    (sched : List Action) (ids : List String) (e : String) (s : Coordinator)
    (rest : List CycleInput)
    (hfail : listThreatIndicators x = (ids, some e))
    (hrun : s.phase = .RUNNING) (hopen : s.handler = .waiting) :
    (processIndicators g x reply sched .waiting).err
        = some ("failed to list threat indicators: " ++ e) ∧
    deleteCalls (processIndicators g x reply sched .waiting).events = [] ∧
    (cycle g s { early := 0, listing := x, reply := reply, sched := sched }).phase
        = .STOPPED 1 ∧
    (cycle g s { early := 0, listing := x, reply := reply, sched := sched }).count = s.count ∧
    (cycle g s { early := 0, listing := x, reply := reply, sched := sched }).trace
        = s.trace ++ (processIndicators g x reply sched .waiting).events ++
          [.fatal ("Failed to process indicators: " ++ ("failed to list threat indicators: " ++ e))] ∧
    deleteCalls (cycle g s { early := 0, listing := x, reply := reply, sched := sched }).trace
        = deleteCalls s.trace ∧
    listCalls (cycle g s { early := 0, listing := x, reply := reply, sched := sched }).trace
        = listCalls s.trace + 1 ∧
    (∀ text ∈ stdoutTexts (processIndicators g x reply sched .waiting).events,
        text = "\nReceived an interrupt, stopping...\n") ∧
    mainLoop g s ({ early := 0, listing := x, reply := reply, sched := sched } :: rest)
        = cycle g s { early := 0, listing := x, reply := reply, sched := sched } ∧
    (∀ err, listThreatIndicators (.transportError err)
        = ([], some ("failed to execute request: " ++ err))) ∧
    (∀ status body, status ≠ 200 → listThreatIndicators (.response status body)
        = ([], some ("unexpected status code: " ++ toString status))) ∧
    (∀ err, listThreatIndicators (.response 200 (.malformed err))
        = ([], some ("failed to unmarshal response: " ++ err))) := by
  obtain ⟨i1, _, _, i4, i5⟩ := idle_events reply sched .waiting
  have hp := processIndicators_failed g x reply sched .waiting ids e hfail
  have hc : cycle g s { early := 0, listing := x, reply := reply, sched := sched } =
      { s with
        phase := .STOPPED 1
        handler := (fanOut [] reply sched .waiting).handler
        trace := s.trace ++ (processIndicators g x reply sched .waiting).events ++
          [.fatal ("Failed to process indicators: " ++ ("failed to list threat indicators: " ++ e))] } := by
    unfold cycle
    simp only [hrun, handlerSteps, hopen, HandlerPc.doneClosed]
    rw [hp]
    simp
  refine ⟨by rw [hp], ?_, by rw [hc], by rw [hc], by rw [hc], ?_, ?_, ?_, ?_, ?_, ?_, ?_⟩
  · rw [hp]; simp [deleteCalls, i1]
  · rw [hc, hp]; simp [deleteCalls, deleteCalls_append, i1]
  · rw [hc, hp]; simp [listCalls, listCalls_append, i4]
  · rw [hp]; simpa [stdoutTexts] using i5
  · simp only [mainLoop, List.foldl_cons]
    exact mainLoop_stopped g _ rest (by rw [hc]; simp)
  · intro err; rfl
  · intro status body hs; exact (listing_status status body).1 hs
  · intro err; simp [listThreatIndicators]

/-- C5, on the scenario of the specification: the listing call returns 401. -/
theorem listing_failure_witness :
    (listThreatIndicators (.response 401 (.malformed "")) =
        ([], some "unexpected status code: 401") ∧
      fresh.phase = .RUNNING ∧ fresh.handler = .waiting) ∧
    mainLoop graphTI fresh
      [{ early := 0, listing := .response 401 (.malformed ""), reply := secondNotFound,
         sched := [] },
       { early := 0, listing := twoRecords, reply := secondNotFound, sched := [] }]
      = { phase := .STOPPED 1
          count := 0
          handler := .waiting
          trace := [.listCall graphTI,
            .fatal ("Failed to process indicators: failed to list threat indicators: " ++
              "unexpected status code: 401")] } :=
  ⟨⟨by decide, by decide, by decide⟩,
    ((listing_failure_fatal graphTI (.response 401 (.malformed "")) secondNotFound [] []
      "unexpected status code: 401" fresh
      [{ early := 0, listing := twoRecords, reply := secondNotFound, sched := [] }]
      (by decide) (by decide) (by decide)).2.2.2.2.2.2.2.2.1).trans (by decide)⟩

/-- C6. Exhaustion stops the loop: from every RUNNING state whose cycle reaches
the listing, a listing that succeeds with zero identifiers makes
`processIndicators` return 0 and no error without any delete call; the loop
prints "No more indicators to delete.", stops with exit code 0, leaves `count`
as it was, and the inputs meant for further cycles are never used. -/
theorem exhaustion_stops (g : GraphTI) (x : ListExchange) (reply : Nat → DeleteExchange)
    (sched : List Action) (s : Coordinator) (rest : List CycleInput)
    (hlist : listThreatIndicators x = ([], none))
    (hrun : s.phase = .RUNNING) (hopen : s.handler = .waiting) :
    (processIndicators g x reply sched .waiting).deletedCount = 0 ∧
    (processIndicators g x reply sched .waiting).err = none ∧
    deleteCalls (processIndicators g x reply sched .waiting).events = [] ∧
    (cycle g s { early := 0, listing := x, reply := reply, sched := sched }).phase
        = .STOPPED 0 ∧
    (cycle g s { early := 0, listing := x, reply := reply, sched := sched }).count = s.count ∧
    (cycle g s { early := 0, listing := x, reply := reply, sched := sched }).trace
        = s.trace ++ (processIndicators g x reply sched .waiting).events ++
          [.stdout "No more indicators to delete.\n"] ∧
    deleteCalls (cycle g s { early := 0, listing := x, reply := reply, sched := sched }).trace
        = deleteCalls s.trace ∧
    listCalls (cycle g s { early := 0, listing := x, reply := reply, sched := sched }).trace
        = listCalls s.trace + 1 ∧
    mainLoop g s ({ early := 0, listing := x, reply := reply, sched := sched } :: rest)
        = cycle g s { early := 0, listing := x, reply := reply, sched := sched } := by
  obtain ⟨i1, _, _, i4, _⟩ := idle_events reply sched .waiting
  have hp := processIndicators_empty g x reply sched .waiting hlist
  have hc : cycle g s { early := 0, listing := x, reply := reply, sched := sched } =
      { s with
        phase := .STOPPED 0
        handler := (fanOut [] reply sched .waiting).handler
        trace := s.trace ++ (processIndicators g x reply sched .waiting).events ++
          [.stdout "No more indicators to delete.\n"] } := by
    unfold cycle
    simp only [hrun, handlerSteps, hopen, HandlerPc.doneClosed]
    rw [hp]
    simp
  refine ⟨by rw [hp], by rw [hp], ?_, by rw [hc], by rw [hc], by rw [hc], ?_, ?_, ?_⟩
  · rw [hp]; simp [deleteCalls, i1]
  · rw [hc, hp]; simp [deleteCalls, deleteCalls_append, i1]
  · rw [hc, hp]; simp [listCalls, listCalls_append, i4]
  · simp only [mainLoop, List.foldl_cons]
    exact mainLoop_stopped g _ rest (by rw [hc]; simp)

/-- C6, after a cycle that deleted two indicators: the empty listing stops the
loop with the total still 2, and the next listing is never asked for. -/
theorem exhaustion_stops_witness :
    (listThreatIndicators noRecords = ([], none)) ∧
    mainLoop graphTI fresh
      [{ early := 0, listing := twoRecords, reply := secondNotFound, sched := [] },
       { early := 0, listing := noRecords, reply := secondNotFound, sched := [] },
       { early := 0, listing := twoRecords, reply := secondNotFound, sched := [] }]
      = { phase := .STOPPED 0
          count := 2
          handler := .waiting
          trace := [.listCall graphTI, .deleteCall "id1", .emitted "id1", .deleteCall "id2",
            .failure "failed to delete indicator with ID id2: unexpected status code: 404",
            .stdout "Deleted 2 indicators.\n", .sleep,
            .listCall graphTI, .stdout "No more indicators to delete.\n"] } :=
  ⟨by decide,
    ((exhaustion_stops graphTI noRecords secondNotFound []
      (cycle graphTI fresh
        { early := 0, listing := twoRecords, reply := secondNotFound, sched := [] })
      [{ early := 0, listing := twoRecords, reply := secondNotFound, sched := [] }]
      (by decide) (by decide) (by decide)).2.2.2.2.2.2.2.2).trans (by decide)⟩

/-- C7. Idempotent stop: when `doneChan` is closed before the `select` of a
cycle (already closed when the cycle begins, or closed by the signal goroutine
before the `select`), the loop makes no listing call and no delete call in that
cycle, stops with exit code 0 and leaves `count` as it was, whatever the state
reached so far, and the inputs meant for further cycles are never used; and a
stopped coordinator is never changed by a cycle, so STOPPED does not lead back
to RUNNING. -/
theorem idempotent_stop (g : GraphTI) (s : Coordinator) (c : CycleInput)
    (rest : List CycleInput)
    (hrun : s.phase = .RUNNING) (hclosed : s.handler.doneClosed = true ∨ 0 < c.early) :
    (cycle g s c).phase = .STOPPED 0 ∧
    (cycle g s c).count = s.count ∧
    listCalls (cycle g s c).trace = listCalls s.trace ∧
    deleteCalls (cycle g s c).trace = deleteCalls s.trace ∧
    mainLoop g s (c :: rest) = cycle g s c ∧
    (∀ (t : Coordinator) (d : CycleInput), t.phase ≠ .RUNNING → cycle g t d = t) := by
  obtain ⟨_, h2, h3, h4, h5⟩ := handlerSteps_spec c.early s
  have hc : cycle g s c = { handlerSteps c.early s with phase := .STOPPED 0 } := by
    unfold cycle
    simp only [hrun, h5 hclosed, if_true]
  refine ⟨by rw [hc], by rw [hc]; exact h2, by rw [hc]; exact h4, by rw [hc]; exact h3, ?_,
    fun t d ht => cycle_stopped g t d ht⟩
  simp only [mainLoop, List.foldl_cons]
  exact mainLoop_stopped g _ rest (by rw [hc]; simp)

/-- C7, after one completed cycle during which the interrupt arrived. -/
theorem idempotent_stop_witness :
    ((cycle graphTI fresh
        { early := 0, listing := twoRecords, reply := secondNotFound,
          sched := [.run 0, .run 0, .run 1, .run 1, .run 1, .handler] }).phase = .RUNNING ∧
      (cycle graphTI fresh
        { early := 0, listing := twoRecords, reply := secondNotFound,
          sched := [.run 0, .run 0, .run 1, .run 1, .run 1, .handler] }).handler.doneClosed
        = true) ∧
    listCalls (mainLoop graphTI fresh
      [{ early := 0, listing := twoRecords, reply := secondNotFound,
         sched := [.run 0, .run 0, .run 1, .run 1, .run 1, .handler] },
       { early := 0, listing := twoRecords, reply := secondNotFound, sched := [] },
       { early := 0, listing := twoRecords, reply := secondNotFound, sched := [] }]).trace = 1 ∧
    (mainLoop graphTI fresh
      [{ early := 0, listing := twoRecords, reply := secondNotFound,
         sched := [.run 0, .run 0, .run 1, .run 1, .run 1, .handler] },
       { early := 0, listing := twoRecords, reply := secondNotFound, sched := [] },
       { early := 0, listing := twoRecords, reply := secondNotFound, sched := [] }]).phase
      = .STOPPED 0 := by
  have h := idempotent_stop graphTI
    (cycle graphTI fresh
      { early := 0, listing := twoRecords, reply := secondNotFound,
        sched := [.run 0, .run 0, .run 1, .run 1, .run 1, .handler] })
    { early := 0, listing := twoRecords, reply := secondNotFound, sched := [] }
    [{ early := 0, listing := twoRecords, reply := secondNotFound, sched := [] }]
    (by decide) (Or.inl (by decide))
  refine ⟨⟨by decide, by decide⟩, ?_, ?_⟩
  · have h1 := h.2.2.1
    rw [← h.2.2.2.2.1] at h1
    exact h1.trans (by decide)
  · have h1 := h.1
    rw [← h.2.2.2.2.1] at h1
    exact h1

/-- C8 fails on the code: a command line without `--subscription` is not
rejected.  The flag keeps its default "none", the check compares with the empty
string, and `main` goes on to the listing call; no usage text is printed and
the process ends with exit code 0 here. -/
theorem missing_subscription_accepted :
    missingRequired (parseFlags "tok"
      { source := none, subscription := none, resourceGroup := some "rg",
        workspace := some "ws", minConfidence := none, maxConfidence := none }) = false ∧
    (parseFlags "tok"
      { source := none, subscription := none, resourceGroup := some "rg",
        workspace := some "ws", minConfidence := none, maxConfidence := none }).subscription
      = "none" ∧
    main (.output "tok")
      { source := none, subscription := none, resourceGroup := some "rg",
        workspace := some "ws", minConfidence := none, maxConfidence := none }
      [{ early := 0, listing := noRecords, reply := secondNotFound, sched := [] }]
      = { phase := .STOPPED 0
          count := 0
          handler := .waiting
          trace := [.listCall graphTI, .stdout "No more indicators to delete.\n"] } := by
  decide

/-- The part of C8 the code does: without `--workspace` start-up prints the
error line and the usage text and exits with code 1, before any cycle. -/
theorem missing_workspace_rejected (token : String) (args : CommandLine)
    (cycles : List CycleInput) (htok : token ≠ "") (hws : args.workspace = none) :
    main (.output token) args cycles =
      { phase := .STOPPED 1
        count := 0
        handler := .waiting
        trace := [.stdout "Error: --subscription, --resourceGroup, and --workspace are required\n",
                  .usage] } := by
  simp [main, getAzureToken, htok, missingRequired, parseFlags, hws]

/-- The defaults of the optional flags: "Mandiant", 0 and 50. -/
theorem optional_flags_default (token : String) (args : CommandLine)
    (hs : args.source = none) (hmin : args.minConfidence = none)
    (hmax : args.maxConfidence = none) :
    (parseFlags token args).sources = "Mandiant" ∧
    (parseFlags token args).minConfidence = 0 ∧
    (parseFlags token args).maxConfidence = 50 ∧
    updateGraphTI (parseFlags token args) = graphTI := by
  simp [parseFlags, hs, hmin, hmax, updateGraphTI, graphTI]
  decide

theorem splitComma_ne_nil (cs : List Char) : splitComma cs ≠ [] := by
  induction cs with
  | nil => simp [splitComma]
  | cons c cs ih =>
    unfold splitComma
    split
    · simp
    · split <;> simp

theorem splitComma_intercalate (cs : List Char) :
    List.intercalate [','] (splitComma cs) = cs := by
  induction cs with
  | nil => simp [splitComma, List.intercalate]
  | cons c cs ih =>
    unfold splitComma
    cases h : splitComma cs with
    | nil => exact absurd h (splitComma_ne_nil cs)
    | cons p ps =>
      rw [h] at ih
      by_cases hc : c = ','
      · simp only [hc, if_true]
        rw [← ih]
        simp [List.intercalate, List.intersperse]
      · simp only [hc, if_false]
        rw [← ih]
        cases ps <;> simp [List.intercalate, List.intersperse]

theorem splitComma_no_comma (cs : List Char) : ∀ p ∈ splitComma cs, ',' ∉ p := by
  induction cs with
  | nil => simp [splitComma]
  | cons c cs ih =>
    unfold splitComma
    cases h : splitComma cs with
    | nil => exact absurd h (splitComma_ne_nil cs)
    | cons p ps =>
      rw [h] at ih
      by_cases hc : c = ','
      · simp only [hc, if_true]
        intro q hq
        simp only [List.mem_cons] at hq
        rcases hq with rfl | hq
        · simp
        · exact ih q (by simpa using hq)
      · simp only [hc, if_false]
        intro q hq
        simp only [List.mem_cons] at hq
        rcases hq with rfl | hq
        · have := ih p (by simp)
          simp only [List.mem_cons, not_or]
          exact ⟨fun h => hc h.symm, this⟩
        · exact ih q (by simp [hq])

theorem processIndicators_head (g : GraphTI) (x : ListExchange) (reply : Nat → DeleteExchange)
    (sched : List Action) (h : HandlerPc) :
    (processIndicators g x reply sched h).events.head? = some (.listCall g) := by
  unfold processIndicators
  split
  · rfl
  · split <;> rfl

theorem cycle_fresh_head (g : GraphTI) (c : CycleInput) (hearly : c.early = 0) :
    (cycle g { phase := .RUNNING, count := 0, handler := .waiting, trace := [] } c).trace.head?
      = some (.listCall g) := by
  have hh := processIndicators_head g c.listing c.reply c.sched .waiting
  unfold cycle
  simp only [hearly, handlerSteps, HandlerPc.doneClosed]
  cases hev : (processIndicators g c.listing c.reply c.sched .waiting).events with
  | nil => rw [hev] at hh; simp at hh
  | cons e es =>
    rw [hev] at hh
    simp only [List.head?_cons, Option.some.injEq] at hh
    subst hh
    simp only [bne_self_eq_false, Bool.false_eq_true, if_false, List.nil_append]
    split
    · simp [hev]
    · split <;> simp [hev]

/-- C9 as stated fails on the code: `main` accepts a start-up input whose
minimum confidence 80 exceeds its maximum 20, and whose source list has an
empty piece, and sends the Filter built from it in the listing request. -/
theorem filter_not_validated :
    (main (.output "tok")
      { source := some "Mandiant,", subscription := some "sub", resourceGroup := some "rg",
        workspace := some "ws", minConfidence := some 80, maxConfidence := some 20 }
      [{ early := 0, listing := noRecords, reply := secondNotFound, sched := [] }]).trace.head?
      = some (.listCall
          { pageSize := 10, minConfidence := 80, maxConfidence := 20,
            sources := ["Mandiant", ""],
            sortBy := [{ itemKey := "lastUpdatedTimeUtc", sortOrder := "descending" }] }) ∧
    ¬ GraphTI.WellFormed
        { pageSize := 10, minConfidence := 80, maxConfidence := 20,
          sources := ["Mandiant", ""],
          sortBy := [{ itemKey := "lastUpdatedTimeUtc", sortOrder := "descending" }] } := by
  exact ⟨by decide, by decide⟩

/-- C9 as amended: for every start-up input `main` accepts, the Filter sent in
the listing request has page size 10 and the sort key of `graphTI`, its
confidence bounds are exactly the supplied integers (0 and 50 by default), and
its sources are exactly the pieces of the source input between its commas
(joined by commas they give the input back, and no piece holds a comma).
Nothing is validated: the Filter meets the constraints of the data model
exactly when the input has no empty piece and 0 <= min <= max <= 100. -/
theorem filter_from_flags (token : String) (args : CommandLine) (c : CycleInput)
    (htok : token ≠ "") (hreq : missingRequired (parseFlags token args) = false)
    (hearly : c.early = 0) :
    (updateGraphTI (parseFlags token args)).pageSize = 10 ∧
    (updateGraphTI (parseFlags token args)).sortBy = graphTI.sortBy ∧
    (updateGraphTI (parseFlags token args)).minConfidence = args.minConfidence.getD 0 ∧
    (updateGraphTI (parseFlags token args)).maxConfidence = args.maxConfidence.getD 50 ∧
    (updateGraphTI (parseFlags token args)).sources = Split (args.source.getD "Mandiant") ∧
    String.mk (List.intercalate [',']
        ((updateGraphTI (parseFlags token args)).sources.map String.toList))
      = args.source.getD "Mandiant" ∧
    (∀ piece ∈ (updateGraphTI (parseFlags token args)).sources, ',' ∉ piece.toList) ∧
    ((updateGraphTI (parseFlags token args)).WellFormed ↔
      ((∀ piece ∈ Split (args.source.getD "Mandiant"), piece ≠ "") ∧
        0 ≤ args.minConfidence.getD 0 ∧
        args.minConfidence.getD 0 ≤ args.maxConfidence.getD 50 ∧
        args.maxConfidence.getD 50 ≤ 100)) ∧
    (main (.output token) args [c]).trace.head?
      = some (.listCall (updateGraphTI (parseFlags token args))) := by
  refine ⟨rfl, rfl, rfl, rfl, rfl, ?_, ?_, ?_, ?_⟩
  · simp only [updateGraphTI, parseFlags, Split, List.map_map]
    have : (String.toList ∘ String.mk) = id := by funext l; rfl
    rw [this, List.map_id, splitComma_intercalate]
    rfl
  · intro piece hp
    simp only [updateGraphTI, parseFlags, Split, List.mem_map] at hp
    obtain ⟨cs, hcs, rfl⟩ := hp
    exact splitComma_no_comma _ cs hcs
  · simp only [GraphTI.WellFormed, updateGraphTI, parseFlags, graphTI]
    constructor
    · rintro ⟨h1, h2, h3, h4, h5, h6, _⟩
      exact ⟨h1, h2, h6, h5⟩
    · rintro ⟨h1, h2, h3, h4⟩
      exact ⟨h1, h2, by omega, by omega, h4, h3, by decide⟩
  · simp only [main, getAzureToken, hreq]
    have : (token == "") = false := by simpa using htok
    simp only [this, Bool.false_eq_true, if_false, mainLoop, List.foldl_cons, List.foldl_nil]
    exact cycle_fresh_head _ c hearly

/-- C9 as amended, on the default flags. -/
theorem filter_from_flags_witness :
    ("tok" ≠ "" ∧
      missingRequired (parseFlags "tok"
        { source := none, subscription := some "sub", resourceGroup := some "rg",
          workspace := some "ws", minConfidence := none, maxConfidence := none }) = false) ∧
    (updateGraphTI (parseFlags "tok"
        { source := none, subscription := some "sub", resourceGroup := some "rg",
          workspace := some "ws", minConfidence := none, maxConfidence := none })).WellFormed :=
  ⟨⟨by decide, by decide⟩,
    (filter_from_flags "tok"
      { source := none, subscription := some "sub", resourceGroup := some "rg",
        workspace := some "ws", minConfidence := none, maxConfidence := none }
      { early := 0, listing := noRecords, reply := secondNotFound, sched := [] }
      (by decide) (by decide) rfl).2.2.2.2.2.2.2.1.mpr
      ⟨by decide, by decide, by decide, by decide⟩⟩

/-- C10. Cancelled tasks are no-ops: when the listing returns the identifiers
`ids` (at least one), then under any scheduling and any timing of the
cancellation `processIndicators` makes at most `len(ids)` delete calls, reports
at most as many failures as it made delete calls (so the buffer of `errors`,
of capacity `len(ids)`, is not exceeded at any point of the schedule), reaches
the barrier with all
`len(ids)` goroutines returned, and returns `len(ids)` and no error; and when
`doneChan` is closed before the first goroutine reaches its `select`, no delete
call is made, no identifier is written and no failure is reported. -/
theorem cancelled_tasks_noop (g : GraphTI) (x : ListExchange) (reply : Nat → DeleteExchange)
    (sched : List Action) (h : HandlerPc) (ids : List String)
    (hlist : listThreatIndicators x = (ids, none)) (hne : ids ≠ []) :
    (deleteCalls (processIndicators g x reply sched h).events).length ≤ ids.length ∧
    (failureLines (processIndicators g x reply sched h).events).length
      ≤ (deleteCalls (processIndicators g x reply sched h).events).length ∧
    (fanOut ids reply sched h).cap = ids.length ∧
    (fanOut ids reply sched h).errors.length ≤ (fanOut ids reply sched h).cap ∧
    (∀ n, ((sched.take n).foldl Pool.act (Pool.start ids reply h)).errors.length
        ≤ ids.length) ∧
    (fanOut ids reply sched h).tasks.length = ids.length ∧
    (∀ t ∈ (fanOut ids reply sched h).tasks, t.pc = .finished) ∧
    (processIndicators g x reply sched h).deletedCount = ids.length ∧
    (processIndicators g x reply sched h).err = none ∧
    ((h.doneClosed = true ∨ ∃ rest, sched = Action.handler :: rest) →
      deleteCalls (processIndicators g x reply sched h).events = [] ∧
      emittedIds (processIndicators g x reply sched h).events = [] ∧
      failureLines (processIndicators g x reply sched h).events = []) := by
  obtain ⟨⟨h1, h2, h3, _, _⟩, hcap, hlen, hfin⟩ := fanOut_safe ids reply sched h
  have hp := processIndicators_listed g x reply sched h ids hlist hne
  have hcalls : deleteCalls (processIndicators g x reply sched h).events
      = deleteCalls (fanOut ids reply sched h).events := by
    rw [hp]; simp [deleteCalls, deleteCalls_append, deleteCalls_map_failure]
  have hlines : failureLines (processIndicators g x reply sched h).events
      = (fanOut ids reply sched h).errors := by
    rw [hp]; simp [failureLines, failureLines_append, h3, failureLines_map_failure]
  have hemit : emittedIds (processIndicators g x reply sched h).events
      = emittedIds (fanOut ids reply sched h).events := by
    rw [hp]; simp [emittedIds, emittedIds_append, emittedIds_map_failure]
  rw [hcap] at h1
  refine ⟨by rw [hcalls]; omega, by rw [hcalls, hlines]; omega, hcap, by rw [hcap]; omega,
    ?_, hlen, hfin, by rw [hp], by rw [hp], ?_⟩
  · intro n
    obtain ⟨⟨k1, k2, _, _, _⟩, kcap⟩ := schedule_safe ids reply (sched.take n) h
    rw [kcap] at k1
    omega
  intro hfired
  obtain ⟨_, _, c1, c2, c3⟩ := fanOut_cold ids reply sched h hfired
  exact ⟨by rw [hcalls, c1], by rw [hemit, c2], by rw [hlines, c3]⟩

/-- C10, on the listing `id1`, `id2` with the interrupt arriving during the
listing call: both goroutines return without a delete call. -/
theorem cancelled_tasks_witness :
    (listThreatIndicators twoRecords = (["id1", "id2"], none) ∧ ["id1", "id2"] ≠ []) ∧
    processIndicators graphTI twoRecords secondNotFound [.handler, .run 1, .run 0] .waiting
      = { deletedCount := 2, err := none, events := [.listCall graphTI], handler := .closed } ∧
    deleteCalls (processIndicators graphTI twoRecords secondNotFound
      [.handler, .run 1, .run 0] .waiting).events = [] :=
  ⟨⟨by decide, by decide⟩, by decide,
    ((cancelled_tasks_noop graphTI twoRecords secondNotFound [.handler, .run 1, .run 0] .waiting
      ["id1", "id2"] (by decide) (by decide)).2.2.2.2.2.2.2.2.2 (Or.inr ⟨_, rfl⟩)).1⟩

end TICleaner
